import Mathlib

/- Shallow embedding of the incremental entity-resolution and deduplication
pipeline of the Air_Quality_Analysis repository.

Embedded code:
  * src/classes/data_processor.py : populate_id_map, process_air_quality_data
  * src/classes/data_loader.py    : _upload_data (core-table loop, table-name
    sanitization for parameter tables)
  * src/main.py                   : AirQualityProcessor.fetch_process_load_data

Modelling conventions:
  * pandas DataFrames become lists of records (structures); row order is the
    Python insertion order.
  * Python dicts used as id maps become association lists with
    most-recent-binding-first lookup, which matches dict assignment semantics
    (a later assignment shadows an earlier one).
  * Python floats (latitude, longitude, value) are modelled as Int: the
    pipeline only ever compares them for equality and copies them.
  * Timestamps are modelled abstractly: the pandas `pd.to_datetime`
    collaborator (line 138 of data_processor.py) is a parameter
    `parse : String → Option Int`, `none` standing for NaT (coerce on
    failure).  pandas merge and drop_duplicates treat NaT keys as equal, so
    `Option Int` with structural equality is faithful.
  * A Python KeyError escaping `process_air_quality_data` is `Except.error ()`.
-/

namespace AirQuality

instance {ε α : Type} [DecidableEq ε] [DecidableEq α] : DecidableEq (Except ε α) := fun x y =>
  match x, y with
  | Except.ok a, Except.ok b =>
    if h : a = b then isTrue (by rw [h]) else isFalse (by intro hc; cases hc; exact h rfl)
  | Except.error a, Except.error b =>
    if h : a = b then isTrue (by rw [h]) else isFalse (by intro hc; cases hc; exact h rfl)
  | Except.ok _, Except.error _ => isFalse (by intro hc; cases hc)
  | Except.error _, Except.ok _ => isFalse (by intro hc; cases hc)

/-- A raw record as fetched from the OpenAQ API.  The four scalar fields are
`Option`s because `process_air_quality_data` line 89 subscripts the record
dict with `'location'`, `'city'`, `'country'`, `'coordinates'` and raises
KeyError when one is missing. -/
structure Coordinates where
  latitude : Int
  longitude : Int
deriving DecidableEq

structure RawMeasurement where
  parameter : String
  value : Int
  lastUpdated : String
  unit : String
deriving DecidableEq

structure RawRecord where
  location : Option String
  city : Option String
  country : Option String
  coordinates : Option Coordinates
  measurements : List RawMeasurement
deriving DecidableEq

/-- A row of the countries table. -/
structure Country where
  country_id : Nat
  country_name : String
deriving DecidableEq

/-- A row of the cities table. -/
structure City where
  city_id : Nat
  city_name : String
  country_id : Nat
deriving DecidableEq

/-- A row of the locations table. -/
structure Location where
  location_id : Nat
  location_name : String
  city_id : Nat
  latitude : Int
  longitude : Int
deriving DecidableEq

/-- A measurement row; `τ` is `String` for the raw `lastUpdated` value copied
at line 128 and `Option Int` after the timestamp normalization of line 138. -/
structure Measurement (τ : Type) where
  location_id : Nat
  parameter : String
  value : Int
  last_updated : τ
  unit : String
deriving DecidableEq

abbrev Meas := Measurement (Option Int)

/-- The four existing tables fetched at lines 69-72 of data_processor.py. -/
structure Store where
  countries : List Country
  cities : List City
  locations : List Location
  measurements : List Meas
deriving DecidableEq

/-- The four DataFrames returned by `process_air_quality_data`. -/
structure Output where
  countries : List Country
  cities : List City
  locations : List Location
  measurements : List Meas
deriving DecidableEq

/-- A Python dict used as an id map: association list, newest binding first. -/
abbrev IdMap (κ : Type) := List (κ × Nat)

/-- Dict lookup: the most recent binding for the key. -/
def findId {κ : Type} [DecidableEq κ] : IdMap κ → κ → Option Nat
  | [], _ => none
  | (k', v) :: rest, k => if k = k' then some v else findId rest k

/-- `populate_id_map` (data_processor.py lines 77-86) for the countries table:
insert `country_name → country_id` for each row and keep
`counter = max(counter, id + 1)`. -/
def populate_country_map : IdMap String × Nat → List Country → IdMap String × Nat
  | p, [] => p
  | (m, c), r :: rs =>
    populate_country_map ((r.country_name, r.country_id) :: m, max c (r.country_id + 1)) rs

/-- `populate_id_map` for the cities table, keyed by `(city_name, country_id)`. -/
def populate_city_map : IdMap (String × Nat) × Nat → List City → IdMap (String × Nat) × Nat
  | p, [] => p
  | (m, c), r :: rs =>
    populate_city_map (((r.city_name, r.country_id), r.city_id) :: m, max c (r.city_id + 1)) rs

/-- `populate_id_map` for the locations table, keyed by
`(location_name, city_id, latitude, longitude)`. -/
def populate_location_map :
    IdMap (String × Nat × Int × Int) × Nat → List Location → IdMap (String × Nat × Int × Int) × Nat
  | p, [] => p
  | (m, c), r :: rs =>
    populate_location_map
      (((r.location_name, r.city_id, r.latitude, r.longitude), r.location_id) :: m,
        max c (r.location_id + 1)) rs

/-- The mutable state of the loop at lines 88-130 of data_processor.py. -/
structure ProcState where
  country_id_map : IdMap String
  city_id_map : IdMap (String × Nat)
  location_id_map : IdMap (String × Nat × Int × Int)
  country_id_counter : Nat
  city_id_counter : Nat
  location_id_counter : Nat
  countries : List Country
  cities : List City
  locations : List Location
  measurements : List (Measurement String)
deriving DecidableEq

/-- Country processing, lines 91-95: allocate a fresh id and append a row when
the name is unseen. -/
def processCountryStep (s : ProcState) (country : String) : ProcState :=
  if findId s.country_id_map country = none then
    { s with
      country_id_map := (country, s.country_id_counter) :: s.country_id_map,
      countries := s.countries ++ [⟨s.country_id_counter, country⟩],
      country_id_counter := s.country_id_counter + 1 }
  else s

/-- `country_id = country_id_map[country]` (line 97); the key is always
present at that point, so the default 0 is never used. -/
def countryIdOf (s : ProcState) (country : String) : Nat :=
  (findId s.country_id_map country).getD 0

/-- City processing, lines 100-104. -/
def processCityStep (s : ProcState) (city : String) (country_id : Nat) : ProcState :=
  if findId s.city_id_map (city, country_id) = none then
    { s with
      city_id_map := ((city, country_id), s.city_id_counter) :: s.city_id_map,
      cities := s.cities ++ [⟨s.city_id_counter, city, country_id⟩],
      city_id_counter := s.city_id_counter + 1 }
  else s

/-- `city_id = city_id_map[city_key]` (line 106). -/
def cityIdOf (s : ProcState) (city : String) (country_id : Nat) : Nat :=
  (findId s.city_id_map (city, country_id)).getD 0

/-- Location processing, lines 109-119. -/
def processLocationStep (s : ProcState) (location_name : String) (city_id : Nat)
    (co : Coordinates) : ProcState :=
  if findId s.location_id_map (location_name, city_id, co.latitude, co.longitude) = none then
    { s with
      location_id_map :=
        ((location_name, city_id, co.latitude, co.longitude), s.location_id_counter)
          :: s.location_id_map,
      locations :=
        s.locations ++ [⟨s.location_id_counter, location_name, city_id, co.latitude, co.longitude⟩],
      location_id_counter := s.location_id_counter + 1 }
  else s

/-- `location_id = location_id_map[location_key]` (line 121). -/
def locationIdOf (s : ProcState) (location_name : String) (city_id : Nat)
    (co : Coordinates) : Nat :=
  (findId s.location_id_map (location_name, city_id, co.latitude, co.longitude)).getD 0

/-- One iteration of the loop at lines 88-130.  Line 89 subscripts the four
required fields simultaneously, so a missing field raises KeyError before the
record contributes anything: modelled as `Except.error ()`. -/
def processRecord (s : ProcState) (r : RawRecord) : Except Unit ProcState :=
  match r.location, r.city, r.country, r.coordinates with
  | some location_name, some city, some country, some co =>
    let s1 := processCountryStep s country
    let country_id := countryIdOf s1 country
    let s2 := processCityStep s1 city country_id
    let city_id := cityIdOf s2 city country_id
    let s3 := processLocationStep s2 location_name city_id co
    let location_id := locationIdOf s3 location_name city_id co
    Except.ok { s3 with
      measurements := s3.measurements ++ r.measurements.map (fun m =>
        { location_id := location_id, parameter := m.parameter, value := m.value,
          last_updated := m.lastUpdated, unit := m.unit }) }
  | _, _, _, _ => Except.error ()

/-- The `for result in results` loop; an exception aborts the whole loop. -/
def processResults (s : ProcState) : List RawRecord → Except Unit ProcState
  | [] => Except.ok s
  | r :: rs =>
    match processRecord s r with
    | Except.ok s' => processResults s' rs
    | Except.error e => Except.error e

/-- Lines 74-86: empty accumulators and the three seeded id maps / counters. -/
def initState (store : Store) : ProcState :=
  let pc := populate_country_map ([], 1) store.countries
  let pci := populate_city_map ([], 1) store.cities
  let pl := populate_location_map ([], 1) store.locations
  { country_id_map := pc.1, country_id_counter := pc.2,
    city_id_map := pci.1, city_id_counter := pci.2,
    location_id_map := pl.1, location_id_counter := pl.2,
    countries := [], cities := [], locations := [], measurements := [] }

/-- Line 138: `pd.to_datetime(..., errors='coerce')` then `tz_localize(None)`
applied to one row; the pandas collaborator is the `parse` parameter. -/
def normalizeMeasurement (parse : String → Option Int) (m : Measurement String) : Meas :=
  { location_id := m.location_id, parameter := m.parameter, value := m.value,
    last_updated := parse m.last_updated, unit := m.unit }

/-- The dedup tuple of lines 141-145. -/
def measKey (m : Meas) : Nat × String × Int × Option Int × String :=
  (m.location_id, m.parameter, m.value, m.last_updated, m.unit)

/-- `drop_duplicates(subset=dedup columns)`, keep-first semantics; `seen` is
the set of keys already kept. -/
def dropDupAux (seen : List (Nat × String × Int × Option Int × String)) :
    List Meas → List Meas
  | [] => []
  | m :: rest =>
    if measKey m ∈ seen then dropDupAux seen rest
    else m :: dropDupAux (measKey m :: seen) rest

def drop_duplicates (l : List Meas) : List Meas := dropDupAux [] l

/-- Lines 140-145: when the existing table is non-empty, the outer merge with
`indicator=True` keeps exactly the new rows whose dedup tuple matches no
existing row (left_only), then intra-batch duplicates are collapsed;
otherwise only the intra-batch collapse runs.  pandas merge and
drop_duplicates both treat NaT as equal to NaT, matching structural equality
of `Option Int`. -/
def dedupMeasurements (exist new : List Meas) : List Meas :=
  if exist.isEmpty then drop_duplicates new
  else
    drop_duplicates (new.filter (fun m => !(exist.any (fun e => measKey e == measKey m))))

/-- `process_air_quality_data` (lines 59-147).  When the accumulated
measurements list is empty, `pd.DataFrame([])` has no columns, so line 138
(`measurements_df['last_updated']`) raises KeyError: modelled as
`Except.error ()`. -/
def process_air_quality_data (parse : String → Option Int) (store : Store)
    (results : List RawRecord) : Except Unit Output :=
  match processResults (initState store) results with
  | Except.error e => Except.error e
  | Except.ok s =>
    if s.measurements.isEmpty then Except.error ()
    else
      Except.ok
        { countries := s.countries, cities := s.cities, locations := s.locations,
          measurements :=
            dedupMeasurements store.measurements (s.measurements.map (normalizeMeasurement parse)) }

/-- Updating the store with one run's outputs (`to_sql(..., if_exists='append')`
appends rows, and a later `SELECT *` returns old rows then new rows). -/
def Store.append (S : Store) (out : Output) : Store :=
  { countries := S.countries ++ out.countries,
    cities := S.cities ++ out.cities,
    locations := S.locations ++ out.locations,
    measurements := S.measurements ++ out.measurements }

/-- Outcome of one `fetch_process_load_data` run (src/main.py lines 22-42):
an exception is caught and logged; an empty deduped measurement set logs
"No new data to process" and returns before any upload. -/
inductive RunOutcome where
  | errorLogged : RunOutcome
  | noNewData : RunOutcome
  | uploaded : Output → RunOutcome
deriving DecidableEq

def fetch_process_load_data (parse : String → Option Int) (store : Store)
    (results : List RawRecord) : RunOutcome :=
  match process_air_quality_data parse store results with
  | Except.error _ => RunOutcome.errorLogged
  | Except.ok out =>
    if out.measurements.isEmpty then RunOutcome.noNewData else RunOutcome.uploaded out

/-- The character class `[\s/_%-]` of data_loader.py line 199 (`\s` over the
ASCII range). -/
def isSepChar (c : Char) : Bool :=
  c == ' ' || c == '\t' || c == '\n' || c == '\r' || c == '\x0b' || c == '\x0c' ||
  c == '/' || c == '_' || c == '%' || c == '-'

/-- Line 199: `re.sub(r'[\s/_%-]', '_', table_name).lower()` — each separator
character is replaced by one underscore individually, then the string is
lower-cased. -/
def sanitizeTableName (s : String) : String :=
  (((s.data.map (fun c => if isSepChar c then '_' else c)).map Char.toLower)).asString

/-- Modelled from the spec: the sanitization as the spec words it, collapsing
each RUN of separator characters to a single underscore before lower-casing.
`prevSep` records whether the previous character was a separator. -/
def collapseSepsAux (prevSep : Bool) : List Char → List Char
  | [] => []
  | c :: rest =>
    if isSepChar c then
      (if prevSep then [] else ['_']) ++ collapseSepsAux true rest
    else c :: collapseSepsAux false rest

/-- Modelled from the spec: collapse separator runs to one underscore, then
lower-case. -/
def sanitizeSpec (s : String) : String :=
  ((collapseSepsAux false s.data).map Char.toLower).asString

/-- `s` contains no two adjacent separator characters. -/
def noSepRun : List Char → Bool
  | [] => true
  | [_] => true
  | a :: b :: rest => (!(isSepChar a && isSepChar b)) && noSepRun (b :: rest)

/-- The core-table upload loop of `_upload_data` (data_loader.py lines
183-192): tables are uploaded strictly in order, each append committing in
its own connection; the first failing upload raises and aborts the loop.
`fails` says which table's store write fails.  Returns the list of tables
whose rows were appended, and whether the loop completed. -/
def uploadLoop (fails : Nat → Bool) : List Nat → List Nat × Bool
  | [] => ([], true)
  | t :: ts =>
    if fails t then ([], false)
    else
      let r := uploadLoop fails ts
      (t :: r.1, r.2)

/-- The four core tables in upload order: countries, cities, locations,
measurements (the `table_data` list of lines 175-180). -/
def coreTables : List Nat := [0, 1, 2, 3]

/-- Maximum existing id of each table (0 when empty), for the allocation
claims. -/
def maxCountryId (rows : List Country) : Nat :=
  rows.foldl (fun a r => max a r.country_id) 0

def maxCityId (rows : List City) : Nat :=
  rows.foldl (fun a r => max a r.city_id) 0

def maxLocationId (rows : List Location) : Nat :=
  rows.foldl (fun a r => max a r.location_id) 0

/-- Generic form of `populate_id_map`, parameterized by the identity-key and
id projections of a row type; each of the three concrete populate functions
is an instance of it. -/
def popFold {κ ρ : Type} (key : ρ → κ) (rid : ρ → Nat) :
    IdMap κ × Nat → List ρ → IdMap κ × Nat
  | p, [] => p
  | (m, c), r :: rs => popFold key rid ((key r, rid r) :: m, max c (rid r + 1)) rs

/-- Foreign-key soundness of a processing state relative to the existing
tables: every id-map binding and every accumulated row references an id that
exists either in the corresponding existing table or among the accumulated
rows of the referenced entity. -/
def FkSound (extC : List Country) (extCi : List City) (extL : List Location)
    (s : ProcState) : Prop :=
  (∀ k i, findId s.country_id_map k = some i →
    i ∈ extC.map Country.country_id ∨ i ∈ s.countries.map Country.country_id) ∧
  (∀ k i, findId s.city_id_map k = some i →
    i ∈ extCi.map City.city_id ∨ i ∈ s.cities.map City.city_id) ∧
  (∀ k i, findId s.location_id_map k = some i →
    i ∈ extL.map Location.location_id ∨ i ∈ s.locations.map Location.location_id) ∧
  (∀ x ∈ s.cities,
    x.country_id ∈ extC.map Country.country_id ∨
      x.country_id ∈ s.countries.map Country.country_id) ∧
  (∀ x ∈ s.locations,
    x.city_id ∈ extCi.map City.city_id ∨ x.city_id ∈ s.cities.map City.city_id) ∧
  (∀ m ∈ s.measurements,
    m.location_id ∈ extL.map Location.location_id ∨
      m.location_id ∈ s.locations.map Location.location_id)

/- ------------------------------------------------------------------ -/
/- Concrete sample data for witnesses, mirroring the example of spec §8. -/

def emptyStore : Store := { countries := [], cities := [], locations := [], measurements := [] }

def sampleParse (s : String) : Option Int :=
  if s = "2024-01-01T00:00:00Z" then some 1704067200 else none

def sampleRecord : RawRecord :=
  { location := some "Station A", city := some "Leeds", country := some "UK",
    coordinates := some { latitude := 53, longitude := -1 },
    measurements :=
      [{ parameter := "pm25", value := 12, lastUpdated := "2024-01-01T00:00:00Z", unit := "ug_m3" }] }

def sampleBatch : List RawRecord := [sampleRecord]

def sampleOutput : Output :=
  { countries := [⟨1, "UK"⟩],
    cities := [⟨1, "Leeds", 1⟩],
    locations := [⟨1, "Station A", 1, 53, -1⟩],
    measurements :=
      [{ location_id := 1, parameter := "pm25", value := 12,
         last_updated := some 1704067200, unit := "ug_m3" }] }

/-- A record missing the required `city` field. -/
def badRecord : RawRecord :=
  { location := some "Station B", city := none, country := some "UK",
    coordinates := some { latitude := 52, longitude := 0 },
    measurements :=
      [{ parameter := "no2", value := 7, lastUpdated := "2024-01-01T00:00:00Z", unit := "ug_m3" }] }

/-- The processing state after resolving `sampleBatch` against the empty
store. -/
def sampleFinalState : ProcState :=
  { country_id_map := [("UK", 1)],
    city_id_map := [(("Leeds", 1), 1)],
    location_id_map := [(("Station A", 1, 53, -1), 1)],
    country_id_counter := 2, city_id_counter := 2, location_id_counter := 2,
    countries := [⟨1, "UK"⟩],
    cities := [⟨1, "Leeds", 1⟩],
    locations := [⟨1, "Station A", 1, 53, -1⟩],
    measurements :=
      [{ location_id := 1, parameter := "pm25", value := 12,
         last_updated := "2024-01-01T00:00:00Z", unit := "ug_m3" }] }

/-- The processing state after resolving `sampleBatch` a second time, against
the store already updated with `sampleOutput`: same registries, no new rows. -/
def sampleSecondState : ProcState :=
  { country_id_map := [("UK", 1)],
    city_id_map := [(("Leeds", 1), 1)],
    location_id_map := [(("Station A", 1, 53, -1), 1)],
    country_id_counter := 2, city_id_counter := 2, location_id_counter := 2,
    countries := [], cities := [], locations := [],
    measurements :=
      [{ location_id := 1, parameter := "pm25", value := 12,
         last_updated := "2024-01-01T00:00:00Z", unit := "ug_m3" }] }

/- ------------------------------------------------------------------ -/
/- Basic lemmas about dict lookup and the three resolution steps.       -/

theorem findId_cons {κ : Type} [DecidableEq κ] (k k' : κ) (v : Nat) (m : IdMap κ) :
    findId ((k', v) :: m) k = if k = k' then some v else findId m k := rfl

@[simp] theorem processCountryStep_cities (s : ProcState) (c : String) :
    (processCountryStep s c).cities = s.cities := by
  unfold processCountryStep; split <;> rfl

@[simp] theorem processCountryStep_locations (s : ProcState) (c : String) :
    (processCountryStep s c).locations = s.locations := by
  unfold processCountryStep; split <;> rfl

@[simp] theorem processCountryStep_measurements (s : ProcState) (c : String) :
    (processCountryStep s c).measurements = s.measurements := by
  unfold processCountryStep; split <;> rfl

@[simp] theorem processCountryStep_city_id_map (s : ProcState) (c : String) :
    (processCountryStep s c).city_id_map = s.city_id_map := by
  unfold processCountryStep; split <;> rfl

@[simp] theorem processCountryStep_location_id_map (s : ProcState) (c : String) :
    (processCountryStep s c).location_id_map = s.location_id_map := by
  unfold processCountryStep; split <;> rfl

@[simp] theorem processCountryStep_city_id_counter (s : ProcState) (c : String) :
    (processCountryStep s c).city_id_counter = s.city_id_counter := by
  unfold processCountryStep; split <;> rfl

@[simp] theorem processCountryStep_location_id_counter (s : ProcState) (c : String) :
    (processCountryStep s c).location_id_counter = s.location_id_counter := by
  unfold processCountryStep; split <;> rfl

@[simp] theorem processCityStep_countries (s : ProcState) (c : String) (cid : Nat) :
    (processCityStep s c cid).countries = s.countries := by
  unfold processCityStep; split <;> rfl

@[simp] theorem processCityStep_locations (s : ProcState) (c : String) (cid : Nat) :
    (processCityStep s c cid).locations = s.locations := by
  unfold processCityStep; split <;> rfl

@[simp] theorem processCityStep_measurements (s : ProcState) (c : String) (cid : Nat) :
    (processCityStep s c cid).measurements = s.measurements := by
  unfold processCityStep; split <;> rfl

@[simp] theorem processCityStep_country_id_map (s : ProcState) (c : String) (cid : Nat) :
    (processCityStep s c cid).country_id_map = s.country_id_map := by
  unfold processCityStep; split <;> rfl

@[simp] theorem processCityStep_location_id_map (s : ProcState) (c : String) (cid : Nat) :
    (processCityStep s c cid).location_id_map = s.location_id_map := by
  unfold processCityStep; split <;> rfl

@[simp] theorem processCityStep_country_id_counter (s : ProcState) (c : String) (cid : Nat) :
    (processCityStep s c cid).country_id_counter = s.country_id_counter := by
  unfold processCityStep; split <;> rfl

@[simp] theorem processCityStep_location_id_counter (s : ProcState) (c : String) (cid : Nat) :
    (processCityStep s c cid).location_id_counter = s.location_id_counter := by
  unfold processCityStep; split <;> rfl

@[simp] theorem processLocationStep_countries (s : ProcState) (n : String) (cid : Nat)
    (co : Coordinates) : (processLocationStep s n cid co).countries = s.countries := by
  unfold processLocationStep; split <;> rfl

@[simp] theorem processLocationStep_cities (s : ProcState) (n : String) (cid : Nat)
    (co : Coordinates) : (processLocationStep s n cid co).cities = s.cities := by
  unfold processLocationStep; split <;> rfl

@[simp] theorem processLocationStep_measurements (s : ProcState) (n : String) (cid : Nat)
    (co : Coordinates) : (processLocationStep s n cid co).measurements = s.measurements := by
  unfold processLocationStep; split <;> rfl

@[simp] theorem processLocationStep_country_id_map (s : ProcState) (n : String) (cid : Nat)
    (co : Coordinates) : (processLocationStep s n cid co).country_id_map = s.country_id_map := by
  unfold processLocationStep; split <;> rfl

@[simp] theorem processLocationStep_city_id_map (s : ProcState) (n : String) (cid : Nat)
    (co : Coordinates) : (processLocationStep s n cid co).city_id_map = s.city_id_map := by
  unfold processLocationStep; split <;> rfl

@[simp] theorem processLocationStep_country_id_counter (s : ProcState) (n : String) (cid : Nat)
    (co : Coordinates) :
    (processLocationStep s n cid co).country_id_counter = s.country_id_counter := by
  unfold processLocationStep; split <;> rfl

@[simp] theorem processLocationStep_city_id_counter (s : ProcState) (n : String) (cid : Nat)
    (co : Coordinates) :
    (processLocationStep s n cid co).city_id_counter = s.city_id_counter := by
  unfold processLocationStep; split <;> rfl

theorem processCountryStep_found (s : ProcState) (c : String) (i : Nat)
    (h : findId s.country_id_map c = some i) : processCountryStep s c = s := by
  unfold processCountryStep; rw [h]; simp

theorem countryIdOf_found (s : ProcState) (c : String) (i : Nat)
    (h : findId s.country_id_map c = some i) : countryIdOf s c = i := by
  unfold countryIdOf; rw [h]; rfl

theorem processCityStep_found (s : ProcState) (c : String) (cid i : Nat)
    (h : findId s.city_id_map (c, cid) = some i) : processCityStep s c cid = s := by
  unfold processCityStep; rw [h]; simp

theorem cityIdOf_found (s : ProcState) (c : String) (cid i : Nat)
    (h : findId s.city_id_map (c, cid) = some i) : cityIdOf s c cid = i := by
  unfold cityIdOf; rw [h]; rfl

theorem processLocationStep_found (s : ProcState) (n : String) (cid : Nat) (co : Coordinates)
    (i : Nat) (h : findId s.location_id_map (n, cid, co.latitude, co.longitude) = some i) :
    processLocationStep s n cid co = s := by
  unfold processLocationStep; rw [h]; simp

theorem locationIdOf_found (s : ProcState) (n : String) (cid : Nat) (co : Coordinates)
    (i : Nat) (h : findId s.location_id_map (n, cid, co.latitude, co.longitude) = some i) :
    locationIdOf s n cid co = i := by
  unfold locationIdOf; rw [h]; rfl

theorem processCountryStep_resolves (s : ProcState) (c : String) :
    ∃ i, findId (processCountryStep s c).country_id_map c = some i ∧
      countryIdOf (processCountryStep s c) c = i := by
  unfold processCountryStep countryIdOf
  split
  · exact ⟨s.country_id_counter, by simp [findId_cons], by simp [findId_cons]⟩
  · next h =>
    rcases Option.ne_none_iff_exists'.mp h with ⟨i, hi⟩
    exact ⟨i, hi, by rw [hi]; rfl⟩

theorem processCityStep_resolves (s : ProcState) (c : String) (cid : Nat) :
    ∃ i, findId (processCityStep s c cid).city_id_map (c, cid) = some i ∧
      cityIdOf (processCityStep s c cid) c cid = i := by
  unfold processCityStep cityIdOf
  split
  · exact ⟨s.city_id_counter, by simp [findId_cons], by simp [findId_cons]⟩
  · next h =>
    rcases Option.ne_none_iff_exists'.mp h with ⟨i, hi⟩
    exact ⟨i, hi, by rw [hi]; rfl⟩

theorem processLocationStep_resolves (s : ProcState) (n : String) (cid : Nat)
    (co : Coordinates) :
    ∃ i, findId (processLocationStep s n cid co).location_id_map
        (n, cid, co.latitude, co.longitude) = some i ∧
      locationIdOf (processLocationStep s n cid co) n cid co = i := by
  unfold processLocationStep locationIdOf
  split
  · exact ⟨s.location_id_counter, by simp [findId_cons], by simp [findId_cons]⟩
  · next h =>
    rcases Option.ne_none_iff_exists'.mp h with ⟨i, hi⟩
    exact ⟨i, hi, by rw [hi]; rfl⟩

theorem processCountryStep_find_mono (s : ProcState) (c k : String) (i : Nat)
    (h : findId s.country_id_map k = some i) :
    findId (processCountryStep s c).country_id_map k = some i := by
  unfold processCountryStep
  split
  · next hc =>
    rw [findId_cons]
    split
    · next hk => subst hk; rw [h] at hc; cases hc
    · exact h
  · exact h

theorem processCityStep_find_mono (s : ProcState) (c : String) (cid : Nat)
    (k : String × Nat) (i : Nat) (h : findId s.city_id_map k = some i) :
    findId (processCityStep s c cid).city_id_map k = some i := by
  unfold processCityStep
  split
  · next hc =>
    rw [findId_cons]
    split
    · next hk => subst hk; rw [h] at hc; cases hc
    · exact h
  · exact h

theorem processLocationStep_find_mono (s : ProcState) (n : String) (cid : Nat)
    (co : Coordinates) (k : String × Nat × Int × Int) (i : Nat)
    (h : findId s.location_id_map k = some i) :
    findId (processLocationStep s n cid co).location_id_map k = some i := by
  unfold processLocationStep
  split
  · next hc =>
    rw [findId_cons]
    split
    · next hk => subst hk; rw [h] at hc; cases hc
    · exact h
  · exact h

/- ------------------------------------------------------------------ -/
/- Effect of one record on each entity accumulator.                     -/

theorem processRecord_country_effect (s : ProcState) (r : RawRecord) (s' : ProcState)
    (h : processRecord s r = Except.ok s') :
    (s'.countries = s.countries ∧ s'.country_id_map = s.country_id_map ∧
      s'.country_id_counter = s.country_id_counter) ∨
    (∃ k, findId s.country_id_map k = none ∧
      s'.countries = s.countries ++ [Country.mk s.country_id_counter k] ∧
      s'.country_id_map = (k, s.country_id_counter) :: s.country_id_map ∧
      s'.country_id_counter = s.country_id_counter + 1) := by
  rcases r with ⟨loc, city, ctry, co, ms⟩
  rcases loc with _ | ln <;> rcases city with _ | ct <;> rcases ctry with _ | cy <;>
    rcases co with _ | cd <;> simp only [processRecord, Except.ok.injEq, reduceCtorEq] at h
  subst h
  simp only [processLocationStep_countries, processCityStep_countries,
    processLocationStep_country_id_map, processCityStep_country_id_map,
    processLocationStep_country_id_counter, processCityStep_country_id_counter]
  unfold processCountryStep
  split
  · next hc => exact Or.inr ⟨cy, hc, rfl, rfl, rfl⟩
  · exact Or.inl ⟨rfl, rfl, rfl⟩

theorem processRecord_city_effect (s : ProcState) (r : RawRecord) (s' : ProcState)
    (h : processRecord s r = Except.ok s') :
    (s'.cities = s.cities ∧ s'.city_id_map = s.city_id_map ∧
      s'.city_id_counter = s.city_id_counter) ∨
    (∃ k, findId s.city_id_map k = none ∧
      s'.cities = s.cities ++ [City.mk s.city_id_counter k.1 k.2] ∧
      s'.city_id_map = (k, s.city_id_counter) :: s.city_id_map ∧
      s'.city_id_counter = s.city_id_counter + 1) := by
  rcases r with ⟨loc, city, ctry, co, ms⟩
  rcases loc with _ | ln <;> rcases city with _ | ct <;> rcases ctry with _ | cy <;>
    rcases co with _ | cd <;> simp only [processRecord, Except.ok.injEq, reduceCtorEq] at h
  subst h
  simp only [processLocationStep_cities, processLocationStep_city_id_map,
    processLocationStep_city_id_counter]
  unfold processCityStep
  simp only [processCountryStep_cities, processCountryStep_city_id_map,
    processCountryStep_city_id_counter]
  split
  · next hc =>
    exact Or.inr ⟨(ct, countryIdOf (processCountryStep s cy) cy), hc, rfl, rfl, rfl⟩
  · exact Or.inl ⟨by simp, by simp, by simp⟩

theorem processRecord_location_effect (s : ProcState) (r : RawRecord) (s' : ProcState)
    (h : processRecord s r = Except.ok s') :
    (s'.locations = s.locations ∧ s'.location_id_map = s.location_id_map ∧
      s'.location_id_counter = s.location_id_counter) ∨
    (∃ k, findId s.location_id_map k = none ∧
      s'.locations = s.locations ++ [Location.mk s.location_id_counter k.1 k.2.1 k.2.2.1 k.2.2.2] ∧
      s'.location_id_map = (k, s.location_id_counter) :: s.location_id_map ∧
      s'.location_id_counter = s.location_id_counter + 1) := by
  rcases r with ⟨loc, city, ctry, co, ms⟩
  rcases loc with _ | ln <;> rcases city with _ | ct <;> rcases ctry with _ | cy <;>
    rcases co with _ | cd <;> simp only [processRecord, Except.ok.injEq, reduceCtorEq] at h
  subst h
  unfold processLocationStep
  simp only [processCityStep_locations, processCityStep_location_id_map,
    processCityStep_location_id_counter, processCountryStep_locations,
    processCountryStep_location_id_map, processCountryStep_location_id_counter]
  split
  · next hc =>
    exact Or.inr ⟨(ln, cityIdOf (processCityStep (processCountryStep s cy) ct
      (countryIdOf (processCountryStep s cy) cy)) ct (countryIdOf (processCountryStep s cy) cy),
      cd.latitude, cd.longitude), hc, rfl, rfl, rfl⟩
  · exact Or.inl ⟨by simp, by simp, by simp⟩

theorem processRecord_measurements_effect (s : ProcState) (r : RawRecord) (s' : ProcState)
    (h : processRecord s r = Except.ok s') :
    ∃ lid, s'.measurements = s.measurements ++ r.measurements.map (fun m =>
      { location_id := lid, parameter := m.parameter, value := m.value,
        last_updated := m.lastUpdated, unit := m.unit }) := by
  rcases r with ⟨loc, city, ctry, co, ms⟩
  rcases loc with _ | ln <;> rcases city with _ | ct <;> rcases ctry with _ | cy <;>
    rcases co with _ | cd <;> simp only [processRecord, Except.ok.injEq, reduceCtorEq] at h
  subst h
  simp only [processLocationStep_measurements, processCityStep_measurements,
    processCountryStep_measurements]
  exact ⟨_, rfl⟩

/- ------------------------------------------------------------------ -/
/- Run-level lemmas.                                                    -/

theorem processResults_cons_ok (s : ProcState) (r : RawRecord) (rs : List RawRecord)
    (s' : ProcState) (h : processResults s (r :: rs) = Except.ok s') :
    ∃ s₁, processRecord s r = Except.ok s₁ ∧ processResults s₁ rs = Except.ok s' := by
  cases hr : processRecord s r with
  | ok s₁ =>
    simp only [processResults, hr] at h
    exact ⟨s₁, rfl, h⟩
  | error e =>
    simp only [processResults, hr, reduceCtorEq] at h

/-- Master lemma about one full resolution run, for one entity type given by
its accessors: the run appends a block `Δ` of new rows whose ids are the
consecutive integers starting at the incoming counter, whose identity keys
are distinct and previously unseen, replaying `populate_id_map` over `Δ`
reconstructs the final registry, and existing bindings survive unchanged. -/
theorem run_generic {κ ρ : Type} [DecidableEq κ]
    (getMap : ProcState → IdMap κ) (getCtr : ProcState → Nat) (getRows : ProcState → List ρ)
    (key : ρ → κ) (rid : ρ → Nat) (mk : κ → Nat → ρ)
    (hkey : ∀ k i, key (mk k i) = k) (hid : ∀ k i, rid (mk k i) = i)
    (effect : ∀ s r s', processRecord s r = Except.ok s' →
      (getRows s' = getRows s ∧ getMap s' = getMap s ∧ getCtr s' = getCtr s) ∨
      (∃ k, findId (getMap s) k = none ∧
        getRows s' = getRows s ++ [mk k (getCtr s)] ∧
        getMap s' = (k, getCtr s) :: getMap s ∧ getCtr s' = getCtr s + 1)) :
    ∀ (rs : List RawRecord) (s s' : ProcState), processResults s rs = Except.ok s' →
      ∃ Δ, getRows s' = getRows s ++ Δ ∧
        getCtr s' = getCtr s + Δ.length ∧
        Δ.map rid = List.range' (getCtr s) Δ.length ∧
        popFold key rid (getMap s, getCtr s) Δ = (getMap s', getCtr s') ∧
        (∀ x ∈ Δ, findId (getMap s) (key x) = none ∧ findId (getMap s') (key x) = some (rid x)) ∧
        (Δ.map key).Nodup ∧
        (∀ k i, findId (getMap s) k = some i → findId (getMap s') k = some i) ∧
        (∀ k i, findId (getMap s') k = some i →
          findId (getMap s) k = some i ∨ ∃ x ∈ Δ, key x = k ∧ rid x = i) := by
  intro rs
  induction rs with
  | nil =>
    intro s s' h
    simp only [processResults] at h
    injection h with h
    subst h
    exact ⟨[], by simp, by simp, rfl, rfl, by simp, by simp,
      fun k i hi => hi, fun k i hi => Or.inl hi⟩
  | cons r rest ih =>
    intro s s' h
    obtain ⟨s₁, hr, hrest⟩ := processResults_cons_ok s r rest s' h
    obtain ⟨Δ', h1, h2, h3, h4, h5, h6, h7, h8⟩ := ih s₁ s' hrest
    rcases effect s r s₁ hr with ⟨e1, e2, e3⟩ | ⟨k₀, ek, e1, e2, e3⟩
    · refine ⟨Δ', ?_, ?_, ?_, ?_, ?_, h6, ?_, ?_⟩
      · rw [h1, e1]
      · rw [h2, e3]
      · rw [h3, e3]
      · rw [e2, e3] at h4; exact h4
      · intro x hx
        obtain ⟨hx1, hx2⟩ := h5 x hx
        rw [e2] at hx1
        exact ⟨hx1, hx2⟩
      · intro k i hk
        exact h7 k i (by rw [e2]; exact hk)
      · intro k i hk
        rcases h8 k i hk with hm | hm
        · rw [e2] at hm; exact Or.inl hm
        · exact Or.inr hm
    · refine ⟨mk k₀ (getCtr s) :: Δ', ?_, ?_, ?_, ?_, ?_, ?_, ?_, ?_⟩
      · rw [h1, e1, List.append_assoc, List.singleton_append]
      · rw [h2, e3]; simp only [List.length_cons]; omega
      · simp only [List.map_cons, hid, List.length_cons]
        rw [List.range'_succ]
        rw [e3] at h3
        rw [h3]
      · rw [popFold, hkey, hid, Nat.max_eq_right (Nat.le_succ _), ← e2]
        have e3' : (getCtr s).succ = getCtr s₁ := by omega
        rw [e3']
        exact h4
      · intro x hx
        rcases List.mem_cons.mp hx with hx | hx
        · subst hx
          refine ⟨by rw [hkey]; exact ek, ?_⟩
          have hfind : findId (getMap s₁) (key (mk k₀ (getCtr s))) = some (rid (mk k₀ (getCtr s))) := by
            rw [hkey, hid, e2, findId_cons]
            simp
          exact h7 _ _ hfind
        · obtain ⟨hx1, hx2⟩ := h5 x hx
          rw [e2, findId_cons] at hx1
          refine ⟨?_, hx2⟩
          split at hx1
          · cases hx1
          · exact hx1
      · simp only [List.map_cons, List.nodup_cons]
        refine ⟨?_, h6⟩
        intro hmem
        obtain ⟨x, hxΔ, hxk⟩ := List.mem_map.mp hmem
        obtain ⟨hx1, _⟩ := h5 x hxΔ
        rw [e2, findId_cons, hxk, hkey] at hx1
        simp at hx1
      · intro k i hk
        have hk1 : findId (getMap s₁) k = some i := by
          rw [e2, findId_cons]
          split
          · next hkk => subst hkk; rw [ek] at hk; cases hk
          · exact hk
        exact h7 k i hk1
      · intro k i hk
        rcases h8 k i hk with hm | hm
        · rw [e2, findId_cons] at hm
          split at hm
          · next hkk =>
            injection hm with hm
            exact Or.inr ⟨mk k₀ (getCtr s), List.mem_cons_self _ _,
              by rw [hkey, hkk], by rw [hid, hm]⟩
          · exact Or.inl hm
        · obtain ⟨x, hxΔ, hxp⟩ := hm
          exact Or.inr ⟨x, List.mem_cons_of_mem _ hxΔ, hxp⟩

theorem run_country :
    ∀ (rs : List RawRecord) (s s' : ProcState), processResults s rs = Except.ok s' →
      ∃ Δ, s'.countries = s.countries ++ Δ ∧
        s'.country_id_counter = s.country_id_counter + Δ.length ∧
        Δ.map Country.country_id = List.range' s.country_id_counter Δ.length ∧
        popFold Country.country_name Country.country_id
            (s.country_id_map, s.country_id_counter) Δ =
          (s'.country_id_map, s'.country_id_counter) ∧
        (∀ x ∈ Δ, findId s.country_id_map x.country_name = none ∧
          findId s'.country_id_map x.country_name = some x.country_id) ∧
        (Δ.map Country.country_name).Nodup ∧
        (∀ k i, findId s.country_id_map k = some i → findId s'.country_id_map k = some i) ∧
        (∀ k i, findId s'.country_id_map k = some i →
          findId s.country_id_map k = some i ∨ ∃ x ∈ Δ, x.country_name = k ∧ x.country_id = i) :=
  run_generic ProcState.country_id_map ProcState.country_id_counter ProcState.countries
    Country.country_name Country.country_id (fun k i => ⟨i, k⟩)
    (fun _ _ => rfl) (fun _ _ => rfl) processRecord_country_effect

theorem run_city :
    ∀ (rs : List RawRecord) (s s' : ProcState), processResults s rs = Except.ok s' →
      ∃ Δ, s'.cities = s.cities ++ Δ ∧
        s'.city_id_counter = s.city_id_counter + Δ.length ∧
        Δ.map City.city_id = List.range' s.city_id_counter Δ.length ∧
        popFold (fun x => (x.city_name, x.country_id)) City.city_id
            (s.city_id_map, s.city_id_counter) Δ =
          (s'.city_id_map, s'.city_id_counter) ∧
        (∀ x ∈ Δ, findId s.city_id_map (x.city_name, x.country_id) = none ∧
          findId s'.city_id_map (x.city_name, x.country_id) = some x.city_id) ∧
        (Δ.map (fun x => (x.city_name, x.country_id))).Nodup ∧
        (∀ k i, findId s.city_id_map k = some i → findId s'.city_id_map k = some i) ∧
        (∀ k i, findId s'.city_id_map k = some i →
          findId s.city_id_map k = some i ∨
            ∃ x ∈ Δ, (x.city_name, x.country_id) = k ∧ x.city_id = i) :=
  run_generic ProcState.city_id_map ProcState.city_id_counter ProcState.cities
    (fun x => (x.city_name, x.country_id)) City.city_id (fun k i => ⟨i, k.1, k.2⟩)
    (fun _ _ => rfl) (fun _ _ => rfl) processRecord_city_effect

theorem run_location :
    ∀ (rs : List RawRecord) (s s' : ProcState), processResults s rs = Except.ok s' →
      ∃ Δ, s'.locations = s.locations ++ Δ ∧
        s'.location_id_counter = s.location_id_counter + Δ.length ∧
        Δ.map Location.location_id = List.range' s.location_id_counter Δ.length ∧
        popFold (fun x => (x.location_name, x.city_id, x.latitude, x.longitude))
            Location.location_id (s.location_id_map, s.location_id_counter) Δ =
          (s'.location_id_map, s'.location_id_counter) ∧
        (∀ x ∈ Δ,
          findId s.location_id_map (x.location_name, x.city_id, x.latitude, x.longitude) = none ∧
          findId s'.location_id_map (x.location_name, x.city_id, x.latitude, x.longitude) =
            some x.location_id) ∧
        (Δ.map (fun x => (x.location_name, x.city_id, x.latitude, x.longitude))).Nodup ∧
        (∀ k i, findId s.location_id_map k = some i → findId s'.location_id_map k = some i) ∧
        (∀ k i, findId s'.location_id_map k = some i →
          findId s.location_id_map k = some i ∨
            ∃ x ∈ Δ, (x.location_name, x.city_id, x.latitude, x.longitude) = k ∧
              x.location_id = i) :=
  run_generic ProcState.location_id_map ProcState.location_id_counter ProcState.locations
    (fun x => (x.location_name, x.city_id, x.latitude, x.longitude)) Location.location_id
    (fun k i => ⟨i, k.1, k.2.1, k.2.2.1, k.2.2.2⟩)
    (fun _ _ => rfl) (fun _ _ => rfl) processRecord_location_effect

theorem populate_country_map_eq (rows : List Country) :
    ∀ p, populate_country_map p rows =
      popFold Country.country_name Country.country_id p rows := by
  induction rows with
  | nil => intro p; rfl
  | cons r rs ih =>
    intro p
    cases p with
    | mk m c => rw [populate_country_map, popFold]; exact ih _

theorem populate_city_map_eq (rows : List City) :
    ∀ p, populate_city_map p rows =
      popFold (fun x => (x.city_name, x.country_id)) City.city_id p rows := by
  induction rows with
  | nil => intro p; rfl
  | cons r rs ih =>
    intro p
    cases p with
    | mk m c => rw [populate_city_map, popFold]; exact ih _

theorem populate_location_map_eq (rows : List Location) :
    ∀ p, populate_location_map p rows =
      popFold (fun x => (x.location_name, x.city_id, x.latitude, x.longitude))
        Location.location_id p rows := by
  induction rows with
  | nil => intro p; rfl
  | cons r rs ih =>
    intro p
    cases p with
    | mk m c => rw [populate_location_map, popFold]; exact ih _

theorem popFold_append {κ ρ : Type} (key : ρ → κ) (rid : ρ → Nat) (A B : List ρ) :
    ∀ p, popFold key rid p (A ++ B) = popFold key rid (popFold key rid p A) B := by
  induction A with
  | nil => intro p; rfl
  | cons r rs ih =>
    intro p
    cases p with
    | mk m c =>
      rw [List.cons_append, popFold, popFold]
      exact ih _

theorem processResults_meas_append (rs : List RawRecord) :
    ∀ s s', processResults s rs = Except.ok s' →
      ∃ Δ, s'.measurements = s.measurements ++ Δ := by
  induction rs with
  | nil =>
    intro s s' h
    simp only [processResults] at h
    injection h with h
    subst h
    exact ⟨[], by simp⟩
  | cons r rest ih =>
    intro s s' h
    obtain ⟨s₁, hr, hrest⟩ := processResults_cons_ok s r rest s' h
    obtain ⟨lid, e⟩ := processRecord_measurements_effect s r s₁ hr
    obtain ⟨Δ, hΔ⟩ := ih s₁ s' hrest
    exact ⟨_, by rw [hΔ, e, List.append_assoc]⟩

theorem processResults_meas_trace (rs : List RawRecord) :
    ∀ s s', processResults s rs = Except.ok s' →
      ∀ m ∈ s'.measurements, m ∈ s.measurements ∨
        ∃ r ∈ rs, ∃ rm ∈ r.measurements, m.parameter = rm.parameter ∧ m.value = rm.value ∧
          m.last_updated = rm.lastUpdated ∧ m.unit = rm.unit := by
  induction rs with
  | nil =>
    intro s s' h m hm
    simp only [processResults] at h
    injection h with h
    subst h
    exact Or.inl hm
  | cons r rest ih =>
    intro s s' h m hm
    obtain ⟨s₁, hr, hrest⟩ := processResults_cons_ok s r rest s' h
    rcases ih s₁ s' hrest m hm with hm1 | ⟨r', hr', rm, hrm, hf⟩
    · obtain ⟨lid, e⟩ := processRecord_measurements_effect s r s₁ hr
      rw [e] at hm1
      rcases List.mem_append.mp hm1 with hmem | hmem
      · exact Or.inl hmem
      · obtain ⟨rm, hrm, hme⟩ := List.mem_map.mp hmem
        subst hme
        exact Or.inr ⟨r, List.mem_cons_self _ _, rm, hrm, rfl, rfl, rfl, rfl⟩
    · exact Or.inr ⟨r', List.mem_cons_of_mem _ hr', rm, hrm, hf⟩

theorem processRecord_country_present (s : ProcState) (r : RawRecord) (s₁ : ProcState)
    (c : String) (h : processRecord s r = Except.ok s₁) (hc : r.country = some c) :
    ∃ i, findId s₁.country_id_map c = some i := by
  rcases r with ⟨loc, city, ctry, co, ms⟩
  simp only at hc
  subst hc
  rcases loc with _ | ln <;> rcases city with _ | ct <;> rcases co with _ | cd <;>
    simp only [processRecord, Except.ok.injEq, reduceCtorEq] at h
  subst h
  obtain ⟨i, hi, _⟩ := processCountryStep_resolves s c
  refine ⟨i, ?_⟩
  simp only [processLocationStep_country_id_map, processCityStep_country_id_map]
  exact hi

theorem processResults_country_present (rs : List RawRecord) :
    ∀ s s', processResults s rs = Except.ok s' →
      ∀ x ∈ rs, ∀ c, x.country = some c → ∃ i, findId s'.country_id_map c = some i := by
  induction rs with
  | nil => intro s s' _ x hx; cases hx
  | cons r rest ih =>
    intro s s' h x hx c hc
    obtain ⟨s₁, hr, hrest⟩ := processResults_cons_ok s r rest s' h
    rcases List.mem_cons.mp hx with hx | hx
    · subst hx
      obtain ⟨i, hi⟩ := processRecord_country_present s x s₁ c hr hc
      obtain ⟨Δ, _, _, _, _, _, _, mono, _⟩ := run_country rest s₁ s' hrest
      exact ⟨i, mono c i hi⟩
    · exact ih s₁ s' hrest x hx c hc

/- ------------------------------------------------------------------ -/
/- Deduplication lemmas.                                                -/

theorem dropDupAux_subset (l : List Meas) :
    ∀ seen, ∀ m ∈ dropDupAux seen l, m ∈ l := by
  induction l with
  | nil => intro seen m hm; cases hm
  | cons x rest ih =>
    intro seen m hm
    rw [dropDupAux] at hm
    split at hm
    · exact List.mem_cons_of_mem _ (ih seen m hm)
    · rcases List.mem_cons.mp hm with hm | hm
      · subst hm; exact List.mem_cons_self _ _
      · exact List.mem_cons_of_mem _ (ih _ m hm)

theorem dropDupAux_keys_nodup (l : List Meas) :
    ∀ seen, ((dropDupAux seen l).map measKey).Nodup ∧
      ∀ k ∈ (dropDupAux seen l).map measKey, k ∉ seen := by
  induction l with
  | nil => intro seen; rw [dropDupAux]; exact ⟨List.nodup_nil, by simp⟩
  | cons x rest ih =>
    intro seen
    rw [dropDupAux]
    split
    · exact ih seen
    · next hx =>
      obtain ⟨ihn, ihs⟩ := ih (measKey x :: seen)
      simp only [List.map_cons, List.nodup_cons]
      refine ⟨⟨?_, ihn⟩, ?_⟩
      · intro hmem
        exact (ihs _ hmem) (List.mem_cons_self _ _)
      · intro k hk
        rcases List.mem_cons.mp hk with hk | hk
        · subst hk; exact hx
        · intro hks
          exact (ihs k hk) (List.mem_cons_of_mem _ hks)

theorem dropDupAux_keys_complete (l : List Meas) :
    ∀ seen k, k ∈ l.map measKey → k ∉ seen → k ∈ (dropDupAux seen l).map measKey := by
  induction l with
  | nil => intro seen k hk _; cases hk
  | cons x rest ih =>
    intro seen k hk hks
    rw [dropDupAux]
    rcases List.mem_cons.mp hk with hk | hk
    · split
      · next hx => exact absurd (hk ▸ hx) hks
      · rw [List.map_cons, hk]
        exact List.mem_cons_self _ _
    · split
      · exact ih seen k hk hks
      · by_cases hkx : k = measKey x
        · rw [List.map_cons, hkx]
          exact List.mem_cons_self _ _
        · refine List.mem_cons_of_mem _ (ih (measKey x :: seen) k hk ?_)
          intro hc
          rcases List.mem_cons.mp hc with hc | hc
          · exact hkx hc
          · exact hks hc

theorem drop_duplicates_subset (l : List Meas) : ∀ m ∈ drop_duplicates l, m ∈ l :=
  dropDupAux_subset l []

theorem drop_duplicates_keys_nodup (l : List Meas) :
    ((drop_duplicates l).map measKey).Nodup :=
  (dropDupAux_keys_nodup l []).1

theorem drop_duplicates_keys_complete (l : List Meas) (k : Nat × String × Int × Option Int × String)
    (hk : k ∈ l.map measKey) : k ∈ (drop_duplicates l).map measKey :=
  dropDupAux_keys_complete l [] k hk (by simp)

theorem dedupMeasurements_subset (E P : List Meas) :
    ∀ m ∈ dedupMeasurements E P, m ∈ P := by
  intro m hm
  unfold dedupMeasurements at hm
  split at hm
  · exact drop_duplicates_subset P m hm
  · exact List.mem_of_mem_filter (drop_duplicates_subset _ m hm)

theorem dedupMeasurements_nodup (E P : List Meas) :
    ((dedupMeasurements E P).map measKey).Nodup := by
  unfold dedupMeasurements
  split
  · exact drop_duplicates_keys_nodup P
  · exact drop_duplicates_keys_nodup _

theorem dedupMeasurements_not_in_existing (E P : List Meas) :
    ∀ m ∈ dedupMeasurements E P, ∀ e ∈ E, measKey e ≠ measKey m := by
  intro m hm e he
  unfold dedupMeasurements at hm
  split at hm
  · next hE =>
    rw [List.isEmpty_iff] at hE
    subst hE
    cases he
  · have hmf := drop_duplicates_subset _ m hm
    have hp := List.of_mem_filter hmf
    simp only [Bool.not_eq_eq_eq_not, Bool.not_true, List.any_eq_false, beq_iff_eq] at hp
    intro hc
    exact absurd hc (by simpa using hp e he)

theorem dedupMeasurements_covers (E P : List Meas) :
    ∀ m ∈ P, measKey m ∈ (E ++ dedupMeasurements E P).map measKey := by
  intro m hm
  rw [List.map_append]
  by_cases hE : measKey m ∈ E.map measKey
  · exact List.mem_append_left _ hE
  · refine List.mem_append_right _ ?_
    unfold dedupMeasurements
    split
    · exact drop_duplicates_keys_complete P _ (List.mem_map_of_mem measKey hm)
    · apply drop_duplicates_keys_complete
      refine List.mem_map_of_mem measKey (List.mem_filter.mpr ⟨hm, ?_⟩)
      simp only [Bool.not_eq_eq_eq_not, Bool.not_true, List.any_eq_false, beq_iff_eq]
      intro e he hc
      exact hE (hc ▸ List.mem_map_of_mem measKey he)

theorem dedupMeasurements_target_nonempty (E P : List Meas) (hP : P ≠ []) :
    E ++ dedupMeasurements E P ≠ [] := by
  cases E with
  | cons e E' => simp
  | nil =>
    rcases P with _ | ⟨m, rest⟩
    · exact absurd rfl hP
    · intro hc
      have := dedupMeasurements_covers [] (m :: rest) m (List.mem_cons_self _ _)
      rw [hc] at this
      cases this

/-- Successful processing decomposed into its loop result and outputs. -/
theorem process_ok_elim (parse : String → Option Int) (S : Store) (rs : List RawRecord)
    (out : Output) (h : process_air_quality_data parse S rs = Except.ok out) :
    ∃ s₁, processResults (initState S) rs = Except.ok s₁ ∧
      s₁.measurements.isEmpty = false ∧
      out = { countries := s₁.countries, cities := s₁.cities, locations := s₁.locations,
              measurements := dedupMeasurements S.measurements
                (s₁.measurements.map (normalizeMeasurement parse)) } := by
  cases hr : processResults (initState S) rs with
  | error e => simp only [process_air_quality_data, hr, reduceCtorEq] at h
  | ok s₁ =>
    simp only [process_air_quality_data, hr] at h
    split at h
    · exact absurd h (by simp)
    · next hne =>
      injection h with h
      exact ⟨s₁, rfl, by rwa [Bool.not_eq_true] at hne, h.symm⟩

/- ------------------------------------------------------------------ -/
/- Claim theorems.                                                      -/

/-- C3: for every batch and existing-measurements set, a successful run
returns a measurements relation with pairwise-distinct dedup tuples, none of
which equals the tuple of a row already in the existing measurements. -/
theorem c3_dedup_correctness (parse : String → Option Int) (S : Store) (rs : List RawRecord)
    (out : Output) (h : process_air_quality_data parse S rs = Except.ok out) :
    (out.measurements.map measKey).Nodup ∧
    ∀ m ∈ out.measurements, ∀ e ∈ S.measurements, measKey e ≠ measKey m := by
  obtain ⟨s₁, _, _, ho⟩ := process_ok_elim parse S rs out h
  subst ho
  exact ⟨dedupMeasurements_nodup _ _,
    fun m hm e he => dedupMeasurements_not_in_existing _ _ m hm e he⟩

/-- Witness for C3 at the concrete sample batch against the empty store. -/
theorem c3_witness :
    (sampleOutput.measurements.map measKey).Nodup ∧
    ∀ m ∈ sampleOutput.measurements, ∀ e ∈ emptyStore.measurements, measKey e ≠ measKey m :=
  c3_dedup_correctness sampleParse emptyStore sampleBatch sampleOutput (by decide)

/-- C10: every output measurement's `last_updated` is the parse of the raw
`lastUpdated` string of a corresponding raw measurement (so a parse failure
yields `none` for that row), and success of the run does not depend on the
parse function — unparseable timestamps never abort the batch. -/
theorem c10_timestamp_normalization (parse parse' : String → Option Int) (S : Store)
    (rs : List RawRecord) (out : Output)
    (h : process_air_quality_data parse S rs = Except.ok out) :
    (∀ m ∈ out.measurements, ∃ r ∈ rs, ∃ rm ∈ r.measurements,
      m.last_updated = parse rm.lastUpdated ∧ m.parameter = rm.parameter ∧
      m.value = rm.value ∧ m.unit = rm.unit) ∧
    ∃ out', process_air_quality_data parse' S rs = Except.ok out' := by
  obtain ⟨s₁, hr, hne, ho⟩ := process_ok_elim parse S rs out h
  constructor
  · subst ho
    intro m hm
    have hmP := dedupMeasurements_subset _ _ m hm
    obtain ⟨raw, hraw, hmn⟩ := List.mem_map.mp hmP
    rcases processResults_meas_trace rs (initState S) s₁ hr raw hraw with
      h0 | ⟨r, hrrs, rm, hrm, hp, hv, hl, hu⟩
    · simp [initState] at h0
    · subst hmn
      refine ⟨r, hrrs, rm, hrm, ?_, ?_, ?_, ?_⟩
      · simp only [normalizeMeasurement]; rw [hl]
      · simp only [normalizeMeasurement]; rw [hp]
      · simp only [normalizeMeasurement]; rw [hv]
      · simp only [normalizeMeasurement]; rw [hu]
  · refine ⟨Output.mk s₁.countries s₁.cities s₁.locations
      (dedupMeasurements S.measurements (s₁.measurements.map (normalizeMeasurement parse'))), ?_⟩
    simp only [process_air_quality_data, hr, hne, Bool.false_eq_true, if_false]

/-- Witness for C10 at the concrete sample inputs. -/
theorem c10_witness :
    (∀ m ∈ sampleOutput.measurements, ∃ r ∈ sampleBatch, ∃ rm ∈ r.measurements,
      m.last_updated = sampleParse rm.lastUpdated ∧ m.parameter = rm.parameter ∧
      m.value = rm.value ∧ m.unit = rm.unit) ∧
    ∃ out', process_air_quality_data sampleParse emptyStore sampleBatch = Except.ok out' :=
  c10_timestamp_normalization sampleParse sampleParse emptyStore sampleBatch sampleOutput
    (by decide)

/-- C1: each resolution step is idempotent (a second resolution of the same
country, city or location identity key changes nothing and returns the same
id), a key already bound in a registry — e.g. seeded from stored rows — is
resolved to its bound id without any allocation, and registry bindings
persist unchanged through an entire run. -/
theorem c1_key_stability (s : ProcState) (c ct ln : String) (cid lcid : Nat)
    (co : Coordinates) :
    processCountryStep (processCountryStep s c) c = processCountryStep s c ∧
    processCityStep (processCityStep s ct cid) ct cid = processCityStep s ct cid ∧
    processLocationStep (processLocationStep s ln lcid co) ln lcid co =
      processLocationStep s ln lcid co ∧
    (∀ i, findId s.country_id_map c = some i →
      processCountryStep s c = s ∧ countryIdOf s c = i) ∧
    (∀ i, findId s.city_id_map (ct, cid) = some i →
      processCityStep s ct cid = s ∧ cityIdOf s ct cid = i) ∧
    (∀ i, findId s.location_id_map (ln, lcid, co.latitude, co.longitude) = some i →
      processLocationStep s ln lcid co = s ∧ locationIdOf s ln lcid co = i) ∧
    (∀ rs s' k i, processResults s rs = Except.ok s' →
      findId s.country_id_map k = some i → findId s'.country_id_map k = some i) ∧
    (∀ rs s' k i, processResults s rs = Except.ok s' →
      findId s.city_id_map k = some i → findId s'.city_id_map k = some i) ∧
    (∀ rs s' k i, processResults s rs = Except.ok s' →
      findId s.location_id_map k = some i → findId s'.location_id_map k = some i) := by
  refine ⟨?_, ?_, ?_, ?_, ?_, ?_, ?_, ?_, ?_⟩
  · obtain ⟨i, hi, _⟩ := processCountryStep_resolves s c
    exact processCountryStep_found _ _ _ hi
  · obtain ⟨i, hi, _⟩ := processCityStep_resolves s ct cid
    exact processCityStep_found _ _ _ _ hi
  · obtain ⟨i, hi, _⟩ := processLocationStep_resolves s ln lcid co
    exact processLocationStep_found _ _ _ _ _ hi
  · exact fun i hi => ⟨processCountryStep_found s c i hi, countryIdOf_found s c i hi⟩
  · exact fun i hi => ⟨processCityStep_found s ct cid i hi, cityIdOf_found s ct cid i hi⟩
  · exact fun i hi => ⟨processLocationStep_found s ln lcid co i hi,
      locationIdOf_found s ln lcid co i hi⟩
  · intro rs s' k i hrun hk
    obtain ⟨Δ, _, _, _, _, _, _, mono, _⟩ := run_country rs s s' hrun
    exact mono k i hk
  · intro rs s' k i hrun hk
    obtain ⟨Δ, _, _, _, _, _, _, mono, _⟩ := run_city rs s s' hrun
    exact mono k i hk
  · intro rs s' k i hrun hk
    obtain ⟨Δ, _, _, _, _, _, _, mono, _⟩ := run_location rs s s' hrun
    exact mono k i hk

/-- Witness for C1: with the registry seeded from the stored sample rows,
resolving "UK" again allocates nothing and returns the stored id 1, and the
binding persists through a re-run of the sample batch. -/
theorem c1_witness :
    (processCountryStep (initState (emptyStore.append sampleOutput)) "UK" =
        initState (emptyStore.append sampleOutput) ∧
      countryIdOf (initState (emptyStore.append sampleOutput)) "UK" = 1) ∧
    findId sampleSecondState.country_id_map "UK" = some 1 := by
  constructor
  · exact (c1_key_stability (initState (emptyStore.append sampleOutput)) "UK" "Leeds"
      "Station A" 1 1 ⟨53, -1⟩).2.2.2.1 1 (by decide)
  · exact (c1_key_stability (initState (emptyStore.append sampleOutput)) "UK" "Leeds"
      "Station A" 1 1 ⟨53, -1⟩).2.2.2.2.2.2.1 sampleBatch sampleSecondState "UK" 1
      (by decide) (by decide)

theorem populate_country_counter (rows : List Country) :
    ∀ (m : IdMap String) (c : Nat), (populate_country_map (m, c + 1) rows).2 =
      (rows.foldl (fun a r => max a r.country_id) c) + 1 := by
  induction rows with
  | nil => intro m c; rfl
  | cons r rs ih =>
    intro m c
    rw [populate_country_map, Nat.succ_max_succ, List.foldl_cons]
    exact ih _ _

theorem populate_city_counter (rows : List City) :
    ∀ (m : IdMap (String × Nat)) (c : Nat), (populate_city_map (m, c + 1) rows).2 =
      (rows.foldl (fun a r => max a r.city_id) c) + 1 := by
  induction rows with
  | nil => intro m c; rfl
  | cons r rs ih =>
    intro m c
    rw [populate_city_map, Nat.succ_max_succ, List.foldl_cons]
    exact ih _ _

theorem populate_location_counter (rows : List Location) :
    ∀ (m : IdMap (String × Nat × Int × Int)) (c : Nat),
      (populate_location_map (m, c + 1) rows).2 =
        (rows.foldl (fun a r => max a r.location_id) c) + 1 := by
  induction rows with
  | nil => intro m c; rfl
  | cons r rs ih =>
    intro m c
    rw [populate_location_map, Nat.succ_max_succ, List.foldl_cons]
    exact ih _ _

theorem initState_country_counter (S : Store) :
    (initState S).country_id_counter = maxCountryId S.countries + 1 :=
  populate_country_counter S.countries [] 0

theorem initState_city_counter (S : Store) :
    (initState S).city_id_counter = maxCityId S.cities + 1 :=
  populate_city_counter S.cities [] 0

theorem initState_location_counter (S : Store) :
    (initState S).location_id_counter = maxLocationId S.locations + 1 :=
  populate_location_counter S.locations [] 0

/-- C2: in a registry seeded from existing rows with maximum id M (0 when the
table is empty, so numbering starts at 1), the new rows of a run carry
exactly the consecutive ids M+1, M+2, …, in order, one row per distinct
previously-unseen identity key — and for countries, every batch country name
that was unseen in the seeded registry does get a row. -/
theorem c2_monotonic_allocation (S : Store) (rs : List RawRecord) (s' : ProcState)
    (h : processResults (initState S) rs = Except.ok s') :
    ((initState S).country_id_counter = maxCountryId S.countries + 1 ∧
      s'.countries.map Country.country_id =
        List.range' ((initState S).country_id_counter) s'.countries.length ∧
      (s'.countries.map Country.country_name).Nodup ∧
      (∀ x ∈ s'.countries, findId (initState S).country_id_map x.country_name = none) ∧
      (∀ x ∈ rs, ∀ c, x.country = some c →
        findId (initState S).country_id_map c = none →
          c ∈ s'.countries.map Country.country_name)) ∧
    ((initState S).city_id_counter = maxCityId S.cities + 1 ∧
      s'.cities.map City.city_id =
        List.range' ((initState S).city_id_counter) s'.cities.length ∧
      (s'.cities.map (fun x => (x.city_name, x.country_id))).Nodup ∧
      (∀ x ∈ s'.cities, findId (initState S).city_id_map (x.city_name, x.country_id) = none)) ∧
    ((initState S).location_id_counter = maxLocationId S.locations + 1 ∧
      s'.locations.map Location.location_id =
        List.range' ((initState S).location_id_counter) s'.locations.length ∧
      (s'.locations.map
        (fun x => (x.location_name, x.city_id, x.latitude, x.longitude))).Nodup ∧
      (∀ x ∈ s'.locations,
        findId (initState S).location_id_map
          (x.location_name, x.city_id, x.latitude, x.longitude) = none)) := by
  obtain ⟨Δc, hc1, hc2, hc3, hc4, hc5, hc6, hc7, hc8⟩ := run_country rs (initState S) s' h
  obtain ⟨Δi, hi1, hi2, hi3, hi4, hi5, hi6, hi7, hi8⟩ := run_city rs (initState S) s' h
  obtain ⟨Δl, hl1, hl2, hl3, hl4, hl5, hl6, hl7, hl8⟩ := run_location rs (initState S) s' h
  have ec : (initState S).countries = [] := rfl
  have eci : (initState S).cities = [] := rfl
  have el : (initState S).locations = [] := rfl
  rw [ec, List.nil_append] at hc1
  rw [eci, List.nil_append] at hi1
  rw [el, List.nil_append] at hl1
  subst hc1; subst hi1; subst hl1
  refine ⟨⟨initState_country_counter S, hc3, hc6, fun x hx => (hc5 x hx).1, ?_⟩,
    ⟨initState_city_counter S, hi3, hi6, fun x hx => (hi5 x hx).1⟩,
    ⟨initState_location_counter S, hl3, hl6, fun x hx => (hl5 x hx).1⟩⟩
  intro x hx c hcx hnone
  obtain ⟨i, hi⟩ := processResults_country_present rs (initState S) s' h x hx c hcx
  rcases hc8 c i hi with hfound | ⟨y, hyΔ, hyk, _⟩
  · rw [hnone] at hfound; cases hfound
  · rw [← hyk]
    exact List.mem_map_of_mem _ hyΔ

/-- Witness for C2 at the sample batch against the empty store. -/
theorem c2_witness :
    (initState emptyStore).country_id_counter = maxCountryId emptyStore.countries + 1 ∧
    sampleFinalState.countries.map Country.country_id =
      List.range' ((initState emptyStore).country_id_counter)
        sampleFinalState.countries.length := by
  have h := c2_monotonic_allocation emptyStore sampleBatch sampleFinalState (by decide)
  exact ⟨h.1.1, h.1.2.1⟩

/- ------------------------------------------------------------------ -/
/- Foreign-key soundness (claim C4).                                    -/

theorem popFold_find {κ ρ : Type} [DecidableEq κ] (key : ρ → κ) (rid : ρ → Nat)
    (rows : List ρ) :
    ∀ (m : IdMap κ) (c : Nat) (k : κ) (i : Nat),
      findId (popFold key rid (m, c) rows).1 k = some i →
        findId m k = some i ∨ ∃ x ∈ rows, key x = k ∧ rid x = i := by
  induction rows with
  | nil => intro m c k i hk; exact Or.inl hk
  | cons r rest ih =>
    intro m c k i hk
    rw [popFold] at hk
    rcases ih _ _ k i hk with hk | ⟨x, hx, hxp⟩
    · rw [findId_cons] at hk
      split at hk
      · next hkk =>
        injection hk with hk
        exact Or.inr ⟨r, List.mem_cons_self _ _, hkk.symm, hk⟩
      · exact Or.inl hk
    · exact Or.inr ⟨x, List.mem_cons_of_mem _ hx, hxp⟩

theorem initState_fk_sound (S : Store) :
    FkSound S.countries S.cities S.locations (initState S) := by
  refine ⟨?_, ?_, ?_, ?_, ?_, ?_⟩
  · intro k i hk
    have hk' : findId (popFold Country.country_name Country.country_id ([], 1) S.countries).1
        k = some i := by
      rw [← populate_country_map_eq]; exact hk
    rcases popFold_find _ _ S.countries [] 1 k i hk' with hnil | ⟨x, hx, _, hxi⟩
    · cases hnil
    · exact Or.inl (hxi ▸ List.mem_map_of_mem _ hx)
  · intro k i hk
    have hk' : findId (popFold (fun x => (x.city_name, x.country_id)) City.city_id
        ([], 1) S.cities).1 k = some i := by
      rw [← populate_city_map_eq]; exact hk
    rcases popFold_find _ _ S.cities [] 1 k i hk' with hnil | ⟨x, hx, _, hxi⟩
    · cases hnil
    · exact Or.inl (hxi ▸ List.mem_map_of_mem _ hx)
  · intro k i hk
    have hk' : findId (popFold (fun x => (x.location_name, x.city_id, x.latitude, x.longitude))
        Location.location_id ([], 1) S.locations).1 k = some i := by
      rw [← populate_location_map_eq]; exact hk
    rcases popFold_find _ _ S.locations [] 1 k i hk' with hnil | ⟨x, hx, _, hxi⟩
    · cases hnil
    · exact Or.inl (hxi ▸ List.mem_map_of_mem _ hx)
  · intro x hx; cases hx
  · intro x hx; cases hx
  · intro m hm; cases hm

theorem fk_country_step (extC : List Country) (extCi : List City) (extL : List Location)
    (s : ProcState) (c : String) (hs : FkSound extC extCi extL s) :
    FkSound extC extCi extL (processCountryStep s c) := by
  obtain ⟨m1, m2, m3, r1, r2, r3⟩ := hs
  unfold processCountryStep
  split
  · next hc =>
    refine ⟨?_, m2, m3, ?_, r2, r3⟩
    · intro k i hk
      rw [findId_cons] at hk
      split at hk
      · injection hk with hk
        refine Or.inr ?_
        rw [List.map_append, ← hk]
        exact List.mem_append_right _ (by simp)
      · rcases m1 k i hk with hm | hm
        · exact Or.inl hm
        · exact Or.inr (by rw [List.map_append]; exact List.mem_append_left _ hm)
    · intro x hx
      rcases r1 x hx with hm | hm
      · exact Or.inl hm
      · exact Or.inr (by rw [List.map_append]; exact List.mem_append_left _ hm)
  · exact ⟨m1, m2, m3, r1, r2, r3⟩

theorem fk_city_step (extC : List Country) (extCi : List City) (extL : List Location)
    (s : ProcState) (c : String) (cid : Nat) (hs : FkSound extC extCi extL s)
    (hcid : cid ∈ extC.map Country.country_id ∨ cid ∈ s.countries.map Country.country_id) :
    FkSound extC extCi extL (processCityStep s c cid) := by
  obtain ⟨m1, m2, m3, r1, r2, r3⟩ := hs
  unfold processCityStep
  split
  · next hc =>
    refine ⟨m1, ?_, m3, ?_, ?_, r3⟩
    · intro k i hk
      rw [findId_cons] at hk
      split at hk
      · injection hk with hk
        refine Or.inr ?_
        rw [List.map_append, ← hk]
        exact List.mem_append_right _ (by simp)
      · rcases m2 k i hk with hm | hm
        · exact Or.inl hm
        · exact Or.inr (by rw [List.map_append]; exact List.mem_append_left _ hm)
    · intro x hx
      rcases List.mem_append.mp hx with hx | hx
      · exact r1 x hx
      · rw [List.mem_singleton] at hx
        subst hx
        exact hcid
    · intro x hx
      rcases r2 x hx with hm | hm
      · exact Or.inl hm
      · exact Or.inr (by rw [List.map_append]; exact List.mem_append_left _ hm)
  · exact ⟨m1, m2, m3, r1, r2, r3⟩

theorem fk_location_step (extC : List Country) (extCi : List City) (extL : List Location)
    (s : ProcState) (n : String) (cid : Nat) (co : Coordinates)
    (hs : FkSound extC extCi extL s)
    (hcid : cid ∈ extCi.map City.city_id ∨ cid ∈ s.cities.map City.city_id) :
    FkSound extC extCi extL (processLocationStep s n cid co) := by
  obtain ⟨m1, m2, m3, r1, r2, r3⟩ := hs
  unfold processLocationStep
  split
  · next hc =>
    refine ⟨m1, m2, ?_, r1, ?_, ?_⟩
    · intro k i hk
      rw [findId_cons] at hk
      split at hk
      · injection hk with hk
        refine Or.inr ?_
        rw [List.map_append, ← hk]
        exact List.mem_append_right _ (by simp)
      · rcases m3 k i hk with hm | hm
        · exact Or.inl hm
        · exact Or.inr (by rw [List.map_append]; exact List.mem_append_left _ hm)
    · intro x hx
      rcases List.mem_append.mp hx with hx | hx
      · exact r2 x hx
      · rw [List.mem_singleton] at hx
        subst hx
        exact hcid
    · intro m hm
      rcases r3 m hm with hm' | hm'
      · exact Or.inl hm'
      · exact Or.inr (by rw [List.map_append]; exact List.mem_append_left _ hm')
  · exact ⟨m1, m2, m3, r1, r2, r3⟩

theorem processRecord_fk_sound (extC : List Country) (extCi : List City)
    (extL : List Location) (s : ProcState) (r : RawRecord) (s₁ : ProcState)
    (h : processRecord s r = Except.ok s₁) (hs : FkSound extC extCi extL s) :
    FkSound extC extCi extL s₁ := by
  rcases r with ⟨loc, city, ctry, co, ms⟩
  rcases loc with _ | ln <;> rcases city with _ | ct <;> rcases ctry with _ | cy <;>
    rcases co with _ | cd <;> simp only [processRecord, Except.ok.injEq, reduceCtorEq] at h
  subst h
  have h1 : FkSound extC extCi extL (processCountryStep s cy) := fk_country_step _ _ _ _ _ hs
  obtain ⟨i1, hf1, hc1⟩ := processCountryStep_resolves s cy
  have hcid : countryIdOf (processCountryStep s cy) cy ∈ extC.map Country.country_id ∨
      countryIdOf (processCountryStep s cy) cy ∈
        (processCountryStep s cy).countries.map Country.country_id := by
    rw [hc1]; exact h1.1 cy i1 hf1
  have h2 : FkSound extC extCi extL (processCityStep (processCountryStep s cy) ct
      (countryIdOf (processCountryStep s cy) cy)) := fk_city_step _ _ _ _ _ _ h1 hcid
  obtain ⟨i2, hf2, hc2⟩ := processCityStep_resolves (processCountryStep s cy) ct
    (countryIdOf (processCountryStep s cy) cy)
  have hcity : cityIdOf (processCityStep (processCountryStep s cy) ct
        (countryIdOf (processCountryStep s cy) cy)) ct
        (countryIdOf (processCountryStep s cy) cy) ∈ extCi.map City.city_id ∨
      cityIdOf (processCityStep (processCountryStep s cy) ct
        (countryIdOf (processCountryStep s cy) cy)) ct
        (countryIdOf (processCountryStep s cy) cy) ∈
        (processCityStep (processCountryStep s cy) ct
          (countryIdOf (processCountryStep s cy) cy)).cities.map City.city_id := by
    rw [hc2]; exact h2.2.1 _ i2 hf2
  have h3 := fk_location_step extC extCi extL _ ln _ cd h2 hcity
  obtain ⟨i3, hf3, hc3⟩ := processLocationStep_resolves (processCityStep (processCountryStep s cy)
    ct (countryIdOf (processCountryStep s cy) cy)) ln
    (cityIdOf (processCityStep (processCountryStep s cy) ct
      (countryIdOf (processCountryStep s cy) cy)) ct
      (countryIdOf (processCountryStep s cy) cy)) cd
  obtain ⟨g1, g2, g3, g4, g5, g6⟩ := h3
  have hlid := g3 _ i3 hf3
  refine ⟨g1, g2, g3, g4, g5, ?_⟩
  intro m hm
  rcases List.mem_append.mp hm with hm | hm
  · exact g6 m hm
  · obtain ⟨rm, _, hme⟩ := List.mem_map.mp hm
    subst hme
    simp only
    rw [hc3]
    exact hlid

theorem processResults_fk_sound (extC : List Country) (extCi : List City)
    (extL : List Location) (rs : List RawRecord) :
    ∀ s s', processResults s rs = Except.ok s' → FkSound extC extCi extL s →
      FkSound extC extCi extL s' := by
  induction rs with
  | nil =>
    intro s s' h hs
    simp only [processResults] at h
    injection h with h
    subst h
    exact hs
  | cons r rest ih =>
    intro s s' h hs
    obtain ⟨s₁, hr, hrest⟩ := processResults_cons_ok s r rest s' h
    exact ih s₁ s' hrest (processRecord_fk_sound extC extCi extL s r s₁ hr hs)

/-- C4: a successful run produces no orphan foreign keys — every output
city's `country_id` is the id of an output-or-existing country, every output
location's `city_id` the id of an output-or-existing city, and every output
measurement's `location_id` the id of an output-or-existing location. -/
theorem c4_no_orphans (parse : String → Option Int) (S : Store) (rs : List RawRecord)
    (out : Output) (h : process_air_quality_data parse S rs = Except.ok out) :
    (∀ x ∈ out.cities, x.country_id ∈ (S.countries ++ out.countries).map Country.country_id) ∧
    (∀ x ∈ out.locations, x.city_id ∈ (S.cities ++ out.cities).map City.city_id) ∧
    (∀ m ∈ out.measurements,
      m.location_id ∈ (S.locations ++ out.locations).map Location.location_id) := by
  obtain ⟨s₁, hr, hne, ho⟩ := process_ok_elim parse S rs out h
  have hfk := processResults_fk_sound S.countries S.cities S.locations rs (initState S) s₁ hr
    (initState_fk_sound S)
  obtain ⟨m1, m2, m3, r1, r2, r3⟩ := hfk
  subst ho
  refine ⟨?_, ?_, ?_⟩
  · intro x hx
    rw [List.map_append]
    rcases r1 x hx with hm | hm
    · exact List.mem_append_left _ hm
    · exact List.mem_append_right _ hm
  · intro x hx
    rw [List.map_append]
    rcases r2 x hx with hm | hm
    · exact List.mem_append_left _ hm
    · exact List.mem_append_right _ hm
  · intro m hm
    rw [List.map_append]
    have hmP := dedupMeasurements_subset _ _ m hm
    obtain ⟨raw, hraw, hmn⟩ := List.mem_map.mp hmP
    subst hmn
    rcases r3 raw hraw with hm' | hm'
    · exact List.mem_append_left _ hm'
    · exact List.mem_append_right _ hm'

/-- Witness for C4 at the sample batch against the empty store: the single
output city row references an output country id. -/
theorem c4_witness :
    (City.mk 1 "Leeds" 1).country_id ∈
      (emptyStore.countries ++ sampleOutput.countries).map Country.country_id :=
  (c4_no_orphans sampleParse emptyStore sampleBatch sampleOutput (by decide)).1
    (City.mk 1 "Leeds" 1) (by decide)

/- ------------------------------------------------------------------ -/
/- Malformed records (claim C6) and empty batches (claim C7).           -/

theorem processRecord_malformed (s : ProcState) (r : RawRecord)
    (hm : r.location = none ∨ r.city = none ∨ r.country = none ∨ r.coordinates = none) :
    processRecord s r = Except.error () := by
  rcases r with ⟨loc, city, ctry, co, ms⟩
  rcases loc with _ | ln <;> rcases city with _ | ct <;> rcases ctry with _ | cy <;>
    rcases co with _ | cd <;> simp_all [processRecord]

theorem processResults_error_of_malformed (rs : List RawRecord) (r : RawRecord)
    (hr : r ∈ rs)
    (hm : r.location = none ∨ r.city = none ∨ r.country = none ∨ r.coordinates = none) :
    ∀ s, processResults s rs = Except.error () := by
  induction rs with
  | nil => cases hr
  | cons x rest ih =>
    intro s
    rcases List.mem_cons.mp hr with hx | hx
    · subst hx
      simp only [processResults, processRecord_malformed s r hm]
    · cases hpr : processRecord s x with
      | ok s₁ =>
        simp only [processResults, hpr]
        exact ih hx s₁
      | error e =>
        simp only [processResults, hpr]

/-- C6 counterexample: a batch holding one well-formed record and one record
with a missing `city` field does not skip the bad record and continue — the
whole processing call raises (KeyError) and the orchestrator logs an error,
so not even the well-formed record contributes rows. -/
theorem c6_counterexample :
    process_air_quality_data sampleParse emptyStore [sampleRecord, badRecord] =
      Except.error () ∧
    fetch_process_load_data sampleParse emptyStore [sampleRecord, badRecord] =
      RunOutcome.errorLogged := by decide

/-- C6 amended: a record missing any of the required fields (location name,
city, country, coordinates) anywhere in the batch makes the whole processing
call raise; the exception escapes the resolver, the batch is aborted with no
rows from any record, and the orchestrator catches and logs it, skipping all
storage. -/
theorem c6_malformed_aborts (parse : String → Option Int) (S : Store) (rs : List RawRecord)
    (r : RawRecord) (hr : r ∈ rs)
    (hm : r.location = none ∨ r.city = none ∨ r.country = none ∨ r.coordinates = none) :
    process_air_quality_data parse S rs = Except.error () ∧
    fetch_process_load_data parse S rs = RunOutcome.errorLogged := by
  have he := processResults_error_of_malformed rs r hr hm (initState S)
  constructor
  · simp only [process_air_quality_data, he]
  · simp only [fetch_process_load_data, process_air_quality_data, he]

/-- Witness for the amended C6 at a concrete two-record batch. -/
theorem c6_witness :
    badRecord ∈ [sampleRecord, badRecord] ∧ badRecord.city = none ∧
    process_air_quality_data sampleParse emptyStore [sampleRecord, badRecord] =
      Except.error () :=
  ⟨by decide, rfl,
    (c6_malformed_aborts sampleParse emptyStore [sampleRecord, badRecord] badRecord
      (by decide) (Or.inr (Or.inl rfl))).1⟩

/-- C7: an empty fetched batch is NOT the claimed quiet no-op: the empty
measurements frame makes line 138 raise KeyError, so the orchestrator takes
the error path (`errorLogged`), for every store and parse function.  An
empty post-dedup result, in contrast, is the claimed no-op (`noNewData`). -/
theorem c7_empty_batch_behaviour :
    (∀ (parse : String → Option Int) (S : Store),
      process_air_quality_data parse S [] = Except.error () ∧
      fetch_process_load_data parse S [] = RunOutcome.errorLogged) ∧
    fetch_process_load_data sampleParse (emptyStore.append sampleOutput) sampleBatch =
      RunOutcome.noNewData := by
  constructor
  · intro parse S
    have hloop : processResults (initState S) [] = Except.ok (initState S) := rfl
    have hempty : (initState S).measurements.isEmpty = true := rfl
    constructor
    · simp only [process_air_quality_data, hloop, hempty, if_true]
    · simp only [fetch_process_load_data, process_air_quality_data, hloop, hempty, if_true]
  · decide

/- ------------------------------------------------------------------ -/
/- Table-name sanitization (claim C8).                                  -/

theorem collapseSepsAux_true_head (b : Char) (r2 : List Char) (hb : isSepChar b = false) :
    collapseSepsAux true (b :: r2) = collapseSepsAux false (b :: r2) := by
  rw [collapseSepsAux, collapseSepsAux, hb]
  simp

theorem collapseSepsAux_eq_map (l : List Char) :
    noSepRun l = true →
      collapseSepsAux false l = l.map (fun c => if isSepChar c then '_' else c) := by
  induction l with
  | nil => intro _; rfl
  | cons c rest ih =>
    intro h
    rcases rest with _ | ⟨b, r2⟩
    · rw [List.map_cons, List.map_nil, collapseSepsAux]
      split
      · rfl
      · rfl
    · have hcb := h
      rw [noSepRun] at hcb
      simp only [Bool.and_eq_true] at hcb
      obtain ⟨h1, h2⟩ := hcb
      rw [List.map_cons, collapseSepsAux]
      split
      · next hc =>
        have h1' : (isSepChar c && isSepChar b) = false := by
          cases hx : (isSepChar c && isSepChar b)
          · rfl
          · rw [hx] at h1; cases h1
        rw [hc, Bool.true_and] at h1'
        rw [collapseSepsAux_true_head b r2 h1', ih h2]
        rfl
      · rw [ih h2]

/-- C8 counterexample: the code replaces every separator character by one
underscore individually; on a name with a run of two spaces it produces two
underscores, while the claimed collapse-the-run rule would produce one. -/
theorem c8_counterexample :
    sanitizeTableName "de10_na_openaq_a  b" = "de10_na_openaq_a__b" ∧
    sanitizeSpec "de10_na_openaq_a  b" = "de10_na_openaq_a_b" ∧
    sanitizeTableName "de10_na_openaq_a  b" ≠ sanitizeSpec "de10_na_openaq_a  b" := by
  refine ⟨by decide, by decide, by decide⟩

/-- C8 amended: each whitespace, `/`, `_`, `%` or `-` character is replaced
by one underscore individually and the result lower-cased; this agrees with
the spec's collapse-runs description exactly on names with no two adjacent
separator characters, and on the spec's own example the literal `.`
survives. -/
theorem c8_sanitize_amended :
    (∀ s : String, noSepRun s.data = true → sanitizeTableName s = sanitizeSpec s) ∧
    sanitizeTableName "de10_na_openaq_pm2.5 ug/m3" = "de10_na_openaq_pm2.5_ug_m3" := by
  constructor
  · intro s hs
    unfold sanitizeTableName sanitizeSpec
    rw [collapseSepsAux_eq_map s.data hs]
  · decide

/-- Witness for the amended C8 on a run-free concrete name. -/
theorem c8_witness :
    noSepRun ("a-b c").data = true ∧ sanitizeTableName "a-b c" = sanitizeSpec "a-b c" :=
  ⟨by decide, c8_sanitize_amended.1 "a-b c" (by decide)⟩

/- ------------------------------------------------------------------ -/
/- Core-table upload loop (claim C9).                                   -/

/-- C9 counterexample: when the store write of the third table (locations)
fails, the loop has already appended countries and cities in their own
committed connections — the committed set is neither empty nor all four
tables. -/
theorem c9_counterexample :
    uploadLoop (fun t => t == 2) coreTables = ([0, 1], false) ∧
    (uploadLoop (fun t => t == 2) coreTables).1 ≠ [] ∧
    (uploadLoop (fun t => t == 2) coreTables).1 ≠ coreTables := by
  refine ⟨by decide, by decide, by decide⟩

/-- C9 amended: uploads run strictly in order and abort at the first failing
store write, which is reported as a fatal failure; the tables committed are
exactly the (possibly proper, possibly empty) prefix before the first
failure — all four are committed iff the loop reports success, and a
reported failure means some requested table failed.  There is no
all-or-nothing guarantee. -/
theorem c9_upload_amended :
    ∀ (fails : Nat → Bool) (ts : List Nat),
      (∃ rest, ts = (uploadLoop fails ts).1 ++ rest) ∧
      ((uploadLoop fails ts).2 = true ↔ (uploadLoop fails ts).1 = ts) ∧
      (∀ t ∈ (uploadLoop fails ts).1, fails t = false) ∧
      ((uploadLoop fails ts).2 = false ↔ ∃ t ∈ ts, fails t = true) := by
  intro fails ts
  induction ts with
  | nil =>
    refine ⟨⟨[], rfl⟩, by simp [uploadLoop], by simp [uploadLoop], by simp [uploadLoop]⟩
  | cons t ts ih =>
    obtain ⟨⟨rest, hrest⟩, hiff, hcommit, hfail⟩ := ih
    cases hf : fails t with
    | true =>
      rw [uploadLoop, hf]
      simp only [if_true]
      refine ⟨⟨t :: ts, rfl⟩, ?_, by simp, ?_⟩
      · constructor
        · intro hc; cases hc
        · intro hc; cases hc
      · constructor
        · intro _; exact ⟨t, List.mem_cons_self _ _, hf⟩
        · intro _; trivial
    | false =>
      rw [uploadLoop, hf]
      simp only [if_false, Bool.false_eq_true]
      refine ⟨⟨rest, by rw [List.cons_append, ← hrest]⟩, ?_, ?_, ?_⟩
      · constructor
        · intro hc
          rw [(hiff.mp hc : (uploadLoop fails ts).1 = ts)]
        · intro hc
          injection hc with _ hc
          exact hiff.mpr hc
      · intro x hx
        rcases List.mem_cons.mp hx with hx | hx
        · subst hx; exact hf
        · exact hcommit x hx
      · constructor
        · intro hc
          obtain ⟨x, hx, hxf⟩ := hfail.mp hc
          exact ⟨x, List.mem_cons_of_mem _ hx, hxf⟩
        · intro ⟨x, hx, hxf⟩
          rcases List.mem_cons.mp hx with hx | hx
          · subst hx; rw [hf] at hxf; cases hxf
          · exact hfail.mpr ⟨x, hx, hxf⟩

/-- Witness for the amended C9: concrete failure of the locations upload. -/
theorem c9_witness :
    (∃ rest, coreTables = (uploadLoop (fun t => t == 2) coreTables).1 ++ rest) ∧
    (fun t : Nat => t == 2) 0 = false :=
  ⟨(c9_upload_amended (fun t => t == 2) coreTables).1,
    (c9_upload_amended (fun t => t == 2) coreTables).2.2.1 0 (by decide)⟩

/- ------------------------------------------------------------------ -/
/- Idempotence across runs (claim C5).                                  -/

/-- Replaying one record against a state whose registries already contain
every binding of the first run's post-record state resolves the same ids,
allocates nothing, and appends exactly the measurement rows the first run
appended for this record. -/
theorem processRecord_replay (s s₁ t : ProcState) (r : RawRecord)
    (h : processRecord s r = Except.ok s₁)
    (hmapc : ∀ k i, findId s₁.country_id_map k = some i → findId t.country_id_map k = some i)
    (hmapci : ∀ k i, findId s₁.city_id_map k = some i → findId t.city_id_map k = some i)
    (hmapl : ∀ k i, findId s₁.location_id_map k = some i → findId t.location_id_map k = some i) :
    processRecord t r = Except.ok { t with measurements :=
      t.measurements ++ s₁.measurements.drop s.measurements.length } := by
  rcases r with ⟨loc, city, ctry, co, ms⟩
  rcases loc with _ | ln <;> rcases city with _ | ct <;> rcases ctry with _ | cy <;>
    rcases co with _ | cd <;> simp only [processRecord, Except.ok.injEq, reduceCtorEq] at h
  subst h
  obtain ⟨cid, hfc, hcid⟩ := processCountryStep_resolves s cy
  have hfc1 : findId (processCountryStep s cy).country_id_map cy = some cid := hfc
  have hft_c : findId t.country_id_map cy = some cid := by
    refine hmapc cy cid ?_
    simp only [processLocationStep_country_id_map, processCityStep_country_id_map]
    exact hfc1
  have et1 : processCountryStep t cy = t := processCountryStep_found t cy cid hft_c
  have et2 : countryIdOf t cy = cid := countryIdOf_found t cy cid hft_c
  obtain ⟨ctid, hfci, hctid⟩ :=
    processCityStep_resolves (processCountryStep s cy) ct
      (countryIdOf (processCountryStep s cy) cy)
  have hft_ci : findId t.city_id_map (ct, cid) = some ctid := by
    refine hmapci (ct, cid) ctid ?_
    rw [← hcid]
    simp only [processLocationStep_city_id_map]
    exact hfci
  have et3 : processCityStep t ct cid = t := processCityStep_found t ct cid ctid hft_ci
  have et4 : cityIdOf t ct cid = ctid := cityIdOf_found t ct cid ctid hft_ci
  obtain ⟨lid, hfl, hlid⟩ :=
    processLocationStep_resolves
      (processCityStep (processCountryStep s cy) ct (countryIdOf (processCountryStep s cy) cy))
      ln
      (cityIdOf (processCityStep (processCountryStep s cy) ct
        (countryIdOf (processCountryStep s cy) cy)) ct
        (countryIdOf (processCountryStep s cy) cy))
      cd
  have hft_l : findId t.location_id_map (ln, ctid, cd.latitude, cd.longitude) = some lid := by
    refine hmapl (ln, ctid, cd.latitude, cd.longitude) lid ?_
    rw [← hctid]
    exact hfl
  have et5 : processLocationStep t ln ctid cd = t :=
    processLocationStep_found t ln ctid cd lid hft_l
  have et6 : locationIdOf t ln ctid cd = lid :=
    locationIdOf_found t ln ctid cd lid hft_l
  simp only [processRecord, et1, et2, et3, et4, et5, et6,
    processLocationStep_measurements, processCityStep_measurements,
    processCountryStep_measurements, hlid, List.drop_left]

/-- Replaying a whole batch against a state whose registries equal the first
run's final registries succeeds, allocates no entity rows, leaves registries
and counters untouched, and appends exactly the measurement rows the first
run appended. -/
theorem replay_noop (rs : List RawRecord) :
    ∀ s s' t, processResults s rs = Except.ok s' →
      t.country_id_map = s'.country_id_map →
      t.city_id_map = s'.city_id_map →
      t.location_id_map = s'.location_id_map →
      ∃ t', processResults t rs = Except.ok t' ∧
        t'.country_id_map = t.country_id_map ∧
        t'.city_id_map = t.city_id_map ∧
        t'.location_id_map = t.location_id_map ∧
        t'.country_id_counter = t.country_id_counter ∧
        t'.city_id_counter = t.city_id_counter ∧
        t'.location_id_counter = t.location_id_counter ∧
        t'.countries = t.countries ∧
        t'.cities = t.cities ∧
        t'.locations = t.locations ∧
        t'.measurements = t.measurements ++ s'.measurements.drop s.measurements.length := by
  induction rs with
  | nil =>
    intro s s' t h _ _ _
    simp only [processResults] at h
    injection h with h
    subst h
    exact ⟨t, rfl, rfl, rfl, rfl, rfl, rfl, rfl, rfl, rfl, rfl,
      by rw [List.drop_length, List.append_nil]⟩
  | cons r rest ih =>
    intro s s' t h htc htci htl
    obtain ⟨s₁, hr, hrest⟩ := processResults_cons_ok s r rest s' h
    obtain ⟨Δc, _, _, _, _, _, _, monoC, _⟩ := run_country rest s₁ s' hrest
    obtain ⟨Δi, _, _, _, _, _, _, monoCi, _⟩ := run_city rest s₁ s' hrest
    obtain ⟨Δl, _, _, _, _, _, _, monoL, _⟩ := run_location rest s₁ s' hrest
    have hstep := processRecord_replay s s₁ t r hr
      (fun k i hk => by rw [htc]; exact monoC k i hk)
      (fun k i hk => by rw [htci]; exact monoCi k i hk)
      (fun k i hk => by rw [htl]; exact monoL k i hk)
    obtain ⟨t'', ht1, p1, p2, p3, p4, p5, p6, p7, p8, p9, p10⟩ :=
      ih s₁ s'
        { t with measurements := t.measurements ++ s₁.measurements.drop s.measurements.length }
        hrest htc htci htl
    refine ⟨t'', ?_, p1, p2, p3, p4, p5, p6, p7, p8, p9, ?_⟩
    · simp only [processResults, hstep]
      exact ht1
    · obtain ⟨Δm, hΔm⟩ := processResults_meas_append rest s₁ s' hrest
      obtain ⟨lidA, hA⟩ := processRecord_measurements_effect s r s₁ hr
      rw [p10, hΔm, List.drop_left]
      simp only [hA, List.drop_left, List.append_assoc]

/-- Deduplicating the same normalized batch again, against the store extended
with the first run's deduplicated rows, leaves nothing. -/
theorem dedup_second_empty (E P : List Meas) (hP : P ≠ []) :
    dedupMeasurements (E ++ dedupMeasurements E P) P = [] := by
  have hne := dedupMeasurements_target_nonempty E P hP
  rw [dedupMeasurements]
  split
  · next hE =>
    rw [List.isEmpty_iff] at hE
    exact absurd hE hne
  · have hf : P.filter
        (fun m => !((E ++ dedupMeasurements E P).any (fun e => measKey e == measKey m))) = [] := by
      rw [List.filter_eq_nil_iff]
      intro m hm
      have hcov := dedupMeasurements_covers E P m hm
      obtain ⟨e, he, hek⟩ := List.mem_map.mp hcov
      intro hcontra
      rw [Bool.not_eq_true'] at hcontra
      rw [List.any_eq_false] at hcontra
      exact hcontra e he (by rw [beq_iff_eq]; exact hek)
    rw [hf]
    rfl

/-- C5: running the same batch a second time, against the store updated with
the first run's four outputs, succeeds, resolves every record to the same
surrogate ids (the second run's raw measurement stream, location ids
included, equals the first run's), allocates no new country, city or
location rows, and emits zero measurement rows after dedup. -/
theorem c5_idempotence (parse : String → Option Int) (S : Store) (rs : List RawRecord)
    (out : Output) (h : process_air_quality_data parse S rs = Except.ok out) :
    process_air_quality_data parse (S.append out) rs = Except.ok (Output.mk [] [] [] []) ∧
    ∃ s₁ s₂, processResults (initState S) rs = Except.ok s₁ ∧
      processResults (initState (S.append out)) rs = Except.ok s₂ ∧
      s₂.measurements = s₁.measurements ∧
      s₂.countries = [] ∧ s₂.cities = [] ∧ s₂.locations = [] := by
  obtain ⟨s₁, hr, hne, ho⟩ := process_ok_elim parse S rs out h
  obtain ⟨Δc, hc1, _, _, hc4, _, _, _, _⟩ := run_country rs (initState S) s₁ hr
  obtain ⟨Δi, hi1, _, _, hi4, _, _, _, _⟩ := run_city rs (initState S) s₁ hr
  obtain ⟨Δl, hl1, _, _, hl4, _, _, _, _⟩ := run_location rs (initState S) s₁ hr
  have ec : (initState S).countries = [] := rfl
  have eci : (initState S).cities = [] := rfl
  have el : (initState S).locations = [] := rfl
  rw [ec, List.nil_append] at hc1
  rw [eci, List.nil_append] at hi1
  rw [el, List.nil_append] at hl1
  have hoc : out.countries = s₁.countries := by rw [ho]
  have hoci : out.cities = s₁.cities := by rw [ho]
  have hol : out.locations = s₁.locations := by rw [ho]
  have hom : out.measurements =
      dedupMeasurements S.measurements (s₁.measurements.map (normalizeMeasurement parse)) := by
    rw [ho]
  have hpc : populate_country_map ([], 1) (S.countries ++ s₁.countries) =
      (s₁.country_id_map, s₁.country_id_counter) := by
    rw [populate_country_map_eq, popFold_append]
    have hbase : popFold Country.country_name Country.country_id ([], 1) S.countries =
        ((initState S).country_id_map, (initState S).country_id_counter) := by
      rw [← populate_country_map_eq S.countries ([], 1)]
      rfl
    rw [hbase, hc1]
    exact hc4
  have hpci : populate_city_map ([], 1) (S.cities ++ s₁.cities) =
      (s₁.city_id_map, s₁.city_id_counter) := by
    rw [populate_city_map_eq, popFold_append]
    have hbase : popFold (fun x => (x.city_name, x.country_id)) City.city_id ([], 1) S.cities =
        ((initState S).city_id_map, (initState S).city_id_counter) := by
      rw [← populate_city_map_eq S.cities ([], 1)]
      rfl
    rw [hbase, hi1]
    exact hi4
  have hpl : populate_location_map ([], 1) (S.locations ++ s₁.locations) =
      (s₁.location_id_map, s₁.location_id_counter) := by
    rw [populate_location_map_eq, popFold_append]
    have hbase : popFold (fun x => (x.location_name, x.city_id, x.latitude, x.longitude))
        Location.location_id ([], 1) S.locations =
        ((initState S).location_id_map, (initState S).location_id_counter) := by
      rw [← populate_location_map_eq S.locations ([], 1)]
      rfl
    rw [hbase, hl1]
    exact hl4
  have htc : (initState (S.append out)).country_id_map = s₁.country_id_map := by
    show (populate_country_map ([], 1) (S.append out).countries).1 = _
    have hx : (S.append out).countries = S.countries ++ s₁.countries := by
      show S.countries ++ out.countries = _
      rw [hoc]
    rw [hx, hpc]
  have htci : (initState (S.append out)).city_id_map = s₁.city_id_map := by
    show (populate_city_map ([], 1) (S.append out).cities).1 = _
    have hx : (S.append out).cities = S.cities ++ s₁.cities := by
      show S.cities ++ out.cities = _
      rw [hoci]
    rw [hx, hpci]
  have htl : (initState (S.append out)).location_id_map = s₁.location_id_map := by
    show (populate_location_map ([], 1) (S.append out).locations).1 = _
    have hx : (S.append out).locations = S.locations ++ s₁.locations := by
      show S.locations ++ out.locations = _
      rw [hol]
    rw [hx, hpl]
  obtain ⟨t', ht1, q1, q2, q3, q4, q5, q6, q7, q8, q9, q10⟩ :=
    replay_noop rs (initState S) s₁ (initState (S.append out)) hr htc htci htl
  have ht_countries : t'.countries = [] := q7.trans rfl
  have ht_cities : t'.cities = [] := q8.trans rfl
  have ht_locations : t'.locations = [] := q9.trans rfl
  have htm : t'.measurements = s₁.measurements := by
    rw [q10]
    show ([] : List (Measurement String)) ++ s₁.measurements.drop 0 = s₁.measurements
    rw [List.drop_zero, List.nil_append]
  refine ⟨?_, s₁, t', hr, ht1, htm, ht_countries, ht_cities, ht_locations⟩
  simp only [process_air_quality_data, ht1]
  have hne' : t'.measurements.isEmpty = false := by rw [htm]; exact hne
  rw [hne']
  simp only [Bool.false_eq_true, if_false]
  rw [ht_countries, ht_cities, ht_locations, htm]
  have hsm : (S.append out).measurements = S.measurements ++
      dedupMeasurements S.measurements (s₁.measurements.map (normalizeMeasurement parse)) := by
    show S.measurements ++ out.measurements = _
    rw [hom]
  rw [hsm]
  have hPne : s₁.measurements.map (normalizeMeasurement parse) ≠ [] := by
    intro hc
    rw [List.map_eq_nil_iff] at hc
    rw [hc] at hne
    cases hne
  rw [dedup_second_empty _ _ hPne]

/-- Witness for C5: re-running the sample batch against the updated store
yields four empty outputs. -/
theorem c5_witness :
    process_air_quality_data sampleParse (emptyStore.append sampleOutput) sampleBatch =
      Except.ok (Output.mk [] [] [] []) :=
  (c5_idempotence sampleParse emptyStore sampleBatch sampleOutput (by decide)).1

end AirQuality
